import Mathlib

/-
  A formal model of the crate-dependency-graph builder and rust-project.json
  emitter in gn/rust_project_writer.cc.

  Modelling conventions:
  * A resolved build target is a finite tree: its scalar metadata plus the
    list of its link-type dependency targets (Target::GetDeps(DEPS_LINKED)).
    Acyclic pointer graphs of the C++ build graph unfold to such trees;
    crate-level cycles are still expressible because crates are keyed by
    their root-module path (a string), not by node identity.
  * unordered_map is modelled as an association list in insertion order
    (a deterministic refinement; the claims quantify over all inputs).
  * The mutually recursive resolution (AddCrate) carries an explicit fuel
    parameter for totality; fuel exhaustion returns none, and the top-level
    driver passes enough fuel for every input, mirroring the terminating
    C++ recursion.  Failure paths of the C++ (unordered_map::at throwing,
    the empty-candidate-set assertion) are modelled as none as well.
  * External pure utilities (path resolution, JSON escaping) are fields of
    the BuildSettings record, applied but never inspected.
-/

/-- Scalar metadata of a resolved build target, as read by the writer from
the build graph (BuildGraphView). -/
structure TargetData where
  /-- Target::IsBinary(): compiles sources rather than merely grouping. -/
  isBinary : Bool
  /-- source_types_used().RustSourceUsed(). -/
  rustSourceUsed : Bool
  /-- output_type() == Target::OutputType::GROUP. -/
  isGroup : Bool
  /-- rust_values().crate_root(), as a path string. -/
  crateRoot : String
  /-- toolchain()->label(), rendered as a string. -/
  toolchain : String
  /-- testonly(). -/
  testonly : Bool
  /-- The per-configuration rustflags lists visited by ConfigValuesIterator,
  in configuration-application order. -/
  configRustflags : List (List String)
  /-- config_values().rustenv(). -/
  rustenv : List String
  /-- The sysroot designated by the target's rust tool (GetSysroot());
  empty string means no sysroot. -/
  sysroot : String
  /-- The name of the rust tool for the target's final output. -/
  toolName : String
  /-- computed_outputs(), as path strings. -/
  outputs : List String
  /-- rust_values().crate_name(). -/
  crateName : String
  /-- label().GetUserVisibleName(false). -/
  label : String
  /-- GetBuildDirForTargetAsOutputFile(target, BuildDirType::GEN). -/
  genDir : String

/- A resolved build target: its metadata together with its link-type
dependency targets (the edges walked by GetRustDeps).  The dependency list
is a mutually defined list type so that the tree recursion is structural. -/
mutual
/-- A resolved build target: metadata plus link-type dependency targets. -/
inductive Target where
  | mk (data : TargetData) (deps : TargetList)

/-- The link-type dependency list of a target. -/
inductive TargetList where
  | nil
  | cons (head : Target) (tail : TargetList)
end

def Target.data : Target → TargetData
  | .mk d _ => d

def Target.deps : Target → TargetList
  | .mk _ ds => ds

/-- Build a dependency list from an ordinary list of targets. -/
def TargetList.ofList : List Target → TargetList
  | [] => .nil
  | t :: ts => .cons t (TargetList.ofList ts)

/-- UniqueVector::push_back on the dependency set: append the element unless
it is already present (insertion order preserved, duplicates collapsed). -/
def pushBack (v : List String) (x : String) : List String :=
  if x ∈ v then v else v ++ [x]

mutual
/-- GetRustDeps: walk the target's link-type dependency edges, record the
crate root of every Rust dependency, and recurse transparently through
GROUP targets; do not recurse through Rust dependencies. -/
def getRustDeps (t : Target) (rustDeps : List String) : List String :=
  match t with
  | .mk _ deps => getRustDepsList deps rustDeps

/-- The loop of GetRustDeps over a dependency list. -/
def getRustDepsList (deps : TargetList) (rustDeps : List String) : List String :=
  match deps with
  | .nil => rustDeps
  | .cons dep rest =>
    getRustDepsList rest
      (if dep.data.rustSourceUsed then
        -- Include any Rust dep.
        pushBack rustDeps dep.data.crateRoot
      else if dep.data.isGroup then
        -- Inspect (recursively) any group to see if it contains Rust deps.
        getRustDeps dep rustDeps
      else
        rustDeps)
end

mutual
/-- The crate-level neighbor roots of a target, written after the words of
the specification (§4.2): a Rust dependency contributes its crate root, a
pure grouping dependency is recursed through transparently, and nothing
else contributes; listed in walk order, duplicates kept. -/
def crateNeighborRootsSpec (t : Target) : List String :=
  match t with
  | .mk _ deps => crateNeighborRootsSpecList deps

/-- crateNeighborRootsSpec over a dependency list. -/
def crateNeighborRootsSpecList (deps : TargetList) : List String :=
  match deps with
  | .nil => []
  | .cons dep rest =>
    (if dep.data.rustSourceUsed then [dep.data.crateRoot]
     else if dep.data.isGroup then crateNeighborRootsSpec dep
     else []) ++ crateNeighborRootsSpecList rest
end

/-- Modelled from the spec: the Crate record of rust_project_writer_helpers.h
(the header is not in the excerpt).  Spec §3 CrateRecord: integer handle,
crate root, label, crate name, edition, ordered compiler arguments, optional
compile-target triple, optional generated-sources directory, insertion-ordered
configuration flags (duplicates allowed), ordered (dependency handle,
dependency name) pairs, optional proc-macro output artifact, and ordered
environment-variable entries.  The constructor arguments mirror the
emplace_back call sites of the .cc file, the remaining fields start empty. -/
structure Crate where
  root : String
  targets : List Target
  genDir : Option String
  index : Nat
  name : String
  label : String
  edition : String
  deps : List (Nat × String) := []
  configs : List String := []
  compilerArgs : List String := []
  compilerTargetTriple : Option String := none
  procMacroDylib : Option String := none
  rustenv : List (String × String) := []

/-- Crate::AddDependency: append a (handle, name) dependency edge. -/
def Crate.addDependency (c : Crate) (idx : Nat) (name : String) : Crate :=
  { c with deps := c.deps ++ [(idx, name)] }

/-- Crate::AddConfigItem: append a configuration flag. -/
def Crate.addConfigItem (c : Crate) (cfg : String) : Crate :=
  { c with configs := c.configs ++ [cfg] }

/-- Crate::AddRustenv: record an environment-variable entry. -/
def Crate.addRustenv (c : Crate) (k v : String) : Crate :=
  { c with rustenv := c.rustenv ++ [(k, v)] }

/-- Crate::SetCompilerArgs. -/
def Crate.setCompilerArgs (c : Crate) (args : List String) : Crate :=
  { c with compilerArgs := args }

/-- Crate::SetCompilerTarget. -/
def Crate.setCompilerTargetTriple (c : Crate) (t : String) : Crate :=
  { c with compilerTargetTriple := some t }

/-- Crate::SetIsProcMacro: record the proc-macro output artifact. -/
def Crate.setProcMacroOutput (c : Crate) (out : String) : Crate :=
  { c with procMacroDylib := some out }

/-- The external collaborators the writer calls but never inspects: path
resolution and JSON escaping, bundled as opaque string functions.
buildDirPath is FilePathToUTF8(GetFullPath(build_dir())). -/
structure BuildSettings where
  buildDirPath : String
  /-- FilePathToUTF8(GetFullPath(SourceFile)), for files and directories. -/
  fullPath : String → String
  /-- SourceFile::GetDir(), the containing directory of a file path. -/
  dirOf : String → String
  /-- FilePathToUTF8(GetFullPath(OutputFile::AsSourceDir)), for gen dirs. -/
  genDirSourcePath : String → String
  /-- FilePathToUTF8(GetFullPath(OutputFile::AsSourceFile)), for outputs. -/
  outputFileSourcePath : String → String
  /-- base::EscapeJSONString with put_in_quotes = false. -/
  escapeJSON : String → String

/-- ExtractCompilerArgs: concatenate the per-configuration rustflags lists in
configuration-application order. -/
def extractCompilerArgs (t : Target) : List String :=
  t.data.configRustflags.foldl (fun args rustflags => args ++ rustflags) []

/-- FindArgValue: the argument immediately following the first occurrence of
arg, when such a following argument exists. -/
def findArgValue (arg : String) : List String → Option String
  | previous :: current :: rest =>
    if previous = arg then some current else findArgValue arg (current :: rest)
  | _ => none

/-- Character-level "p is an initial segment of s" (std::string::compare of
the leading prefix.size() characters, as used by the two helpers below). -/
def leadChars : List Char → List Char → Bool
  | [], _ => true
  | _ :: _, [] => false
  | p :: ps, c :: cs => p = c && leadChars ps cs

/-- arg.compare(0, pfx.size(), pfx) == 0. -/
def strLeadsWith (pfx arg : String) : Bool := leadChars pfx.data arg.data

/-- FindArgValueAfterPrefix (renamed for this file): the remainder of the
first argument that starts with the given prefix string. -/
def findArgValueAfterPfx (pfx : String) : List String → Option String
  | [] => none
  | arg :: rest =>
    if strLeadsWith pfx arg then some (arg.drop pfx.length)
    else findArgValueAfterPfx pfx rest

/-- FindAllArgValuesAfterPrefix (renamed for this file): the remainders of
every argument that starts with the given prefix string, in order. -/
def findAllArgValuesAfterPfx (pfx : String) (args : List String) : List String :=
  args.filterMap (fun arg =>
    if strLeadsWith pfx arg then some (arg.drop pfx.length) else none)

/-- The fixed built-in sysroot crate name list, in the source's order. -/
def sysrootCrates : List String :=
  ["std", "core", "alloc", "panic_unwind", "proc_macro", "test", "panic_abort", "unwind"]

/-- sysroot_deps_map.find: the built-in dependencies of a sysroot crate. -/
def sysrootDepsMap (crate : String) : Option (List String) :=
  if crate = "alloc" then some ["core"]
  else if crate = "std" then some ["alloc", "core", "panic_abort", "unwind"]
  else none

/-- unordered_map::find on an association list. -/
def assocFind {α : Type} (k : String) : List (String × α) → Option α
  | [] => none
  | (k2, v) :: rest => if k2 = k then some v else assocFind k rest

/-- The dependency loop of AddSysrootCrate, parameterized by the recursive
synthesis call for one crate. -/
def addSysrootCrateDeps
    (synth : String → List (String × Nat) → List Crate → List (String × Nat) × List Crate) :
    List String → List (String × Nat) → List Crate → List (String × Nat) × List Crate
  | [], lk, cl => (lk, cl)
  | dep :: rest, lk, cl =>
    let (lk, cl) := synth dep lk cl
    addSysrootCrateDeps synth rest lk cl

/-- The body of AddSysrootCrate, with the recursive call abstracted: if the
crate is not already in the per-sysroot lookup, first synthesize every crate
the dependency map lists for it, then memoize its handle and append its
record. -/
def addSysrootCrateStep (bs : BuildSettings) (currentSysroot : String)
    (synth : String → List (String × Nat) → List Crate → List (String × Nat) × List Crate)
    (crate : String) (lk : List (String × Nat)) (cl : List Crate) :
    List (String × Nat) × List Crate :=
  if (assocFind crate lk).isSome then
    -- If this sysroot crate is already in the lookup, we don't add it again.
    (lk, cl)
  else
    let depsLookup := sysrootDepsMap crate
    -- Add any crates that this sysroot crate depends on.
    let (lk, cl) :=
      match depsLookup with
      | some deps => addSysrootCrateDeps synth deps lk cl
      | none => (lk, cl)
    let crateIndex := cl.length
    let lk := lk ++ [(crate, crateIndex)]
    let cratePath := bs.buildDirPath ++ currentSysroot ++
      "/lib/rustlib/src/rust/library/" ++ crate ++ "/src/lib.rs"
    let c : Crate :=
      { root := cratePath, targets := [], genDir := none, index := crateIndex,
        name := crate, label := crate, edition := "2018" }
    let c := c.addConfigItem "debug_assertions"
    let c :=
      match depsLookup with
      | some deps =>
        deps.foldl (fun c dep => c.addDependency ((assocFind dep lk).getD 0) dep) c
      | none => c
    (lk, cl ++ [c])

/-- AddSysrootCrate: synthesize one sysroot crate, after recursively
synthesizing its built-in dependencies.  The fuel argument is a totality
device only; the C++ recursion is over the fixed finite dependency table. -/
def addSysrootCrate (bs : BuildSettings) (currentSysroot : String) :
    Nat → String → List (String × Nat) → List Crate → List (String × Nat) × List Crate
  | 0 => fun _ lk cl => (lk, cl)
  | fuel + 1 => addSysrootCrateStep bs currentSysroot (addSysrootCrate bs currentSysroot fuel)

/-- Ample fuel for addSysrootCrate: the built-in dependency chains have depth
at most three (std to alloc to core). -/
def sysrootCrateFuel : Nat := 8

/-- AddSysroot: if this sysroot is not already in the lookup, synthesize all
of its built-in crates (threading the per-sysroot crate lookup that the C++
creates via operator[]) and register it. -/
def addSysroot (bs : BuildSettings) (sysroot : String)
    (sysrootLookup : List (String × List (String × Nat))) (crateList : List Crate) :
    List (String × List (String × Nat)) × List Crate :=
  if (assocFind sysroot sysrootLookup).isSome then
    -- If this sysroot is already in the lookup, we don't add it again.
    (sysrootLookup, crateList)
  else
    let (inner, crateList) :=
      sysrootCrates.foldl
        (fun (p : List (String × Nat) × List Crate) crate =>
          addSysrootCrate bs sysroot sysrootCrateFuel crate p.1 p.2)
        ([], crateList)
    (sysrootLookup ++ [(sysroot, inner)], crateList)

/-- Relative reformulation of addSysrootCrateDeps for reasoning: the crate
list is represented only by its current length, and the appended suffix is
returned.  Mirrors addSysrootCrateDeps exactly. -/
def addSysrootCrateDepsN
    (synth : String → List (String × Nat) → Nat → List (String × Nat) × List Crate) :
    List String → List (String × Nat) → Nat → List (String × Nat) × List Crate
  | [], lk, _ => (lk, [])
  | dep :: rest, lk, n =>
    let p1 := synth dep lk n
    let p2 := addSysrootCrateDepsN synth rest p1.1 (n + p1.2.length)
    (p2.1, p1.2 ++ p2.2)

/-- Relative reformulation of addSysrootCrateStep: same body, against a
crate list known only by its length. -/
def addSysrootCrateStepN (bs : BuildSettings) (currentSysroot : String)
    (synth : String → List (String × Nat) → Nat → List (String × Nat) × List Crate)
    (crate : String) (lk : List (String × Nat)) (n : Nat) :
    List (String × Nat) × List Crate :=
  if (assocFind crate lk).isSome then (lk, [])
  else
    let depsLookup := sysrootDepsMap crate
    let p :=
      match depsLookup with
      | some deps => addSysrootCrateDepsN synth deps lk n
      | none => (lk, [])
    let crateIndex := n + p.2.length
    let lk2 := p.1 ++ [(crate, crateIndex)]
    let cratePath := bs.buildDirPath ++ currentSysroot ++
      "/lib/rustlib/src/rust/library/" ++ crate ++ "/src/lib.rs"
    let c : Crate :=
      { root := cratePath, targets := [], genDir := none, index := crateIndex,
        name := crate, label := crate, edition := "2018" }
    let c := c.addConfigItem "debug_assertions"
    let c :=
      match depsLookup with
      | some deps =>
        deps.foldl (fun c dep => c.addDependency ((assocFind dep lk2).getD 0) dep) c
      | none => c
    (lk2, p.2 ++ [c])

/-- Relative reformulation of addSysrootCrate. -/
def addSysrootCrateN (bs : BuildSettings) (currentSysroot : String) :
    Nat → String → List (String × Nat) → Nat → List (String × Nat) × List Crate
  | 0 => fun _ lk _ => (lk, [])
  | fuel + 1 => addSysrootCrateStepN bs currentSysroot (addSysrootCrateN bs currentSysroot fuel)

/-- Relative reformulation of AddSysroot's crate loop. -/
def addSysrootLoopN (bs : BuildSettings) (currentSysroot : String) (fuel : Nat) :
    List String → List (String × Nat) → Nat → List (String × Nat) × List Crate
  | [], lk, _ => (lk, [])
  | crate :: rest, lk, n =>
    let p1 := addSysrootCrateN bs currentSysroot fuel crate lk n
    let p2 := addSysrootLoopN bs currentSysroot fuel rest p1.1 (n + p1.2.length)
    (p2.1, p1.2 ++ p2.2)

/-- AddSysrootDependencyToCrate: add a dependency edge on the named sysroot
crate when the per-sysroot lookup has it; absent entries are skipped. -/
def addSysrootDependencyToCrate (c : Crate) (sysroot : List (String × Nat))
    (crateName : String) : Crate :=
  match assocFind crateName sysroot with
  | some crateIdx => c.addDependency crateIdx crateName
  | none => c

/-- The scoring lambda of PreferredTarget: +2 when the target's toolchain is
the default toolchain, +1 when the target is not test-only. -/
def score (defaultToolchain : String) (t : Target) : Nat :=
  (if t.data.toolchain = defaultToolchain then 2 else 0) +
  (if t.data.testonly then 0 else 1)

/-- PreferredTarget: std::max_element over the candidate targets with the
comparison score lhs < score rhs (so the first maximal-scoring candidate is
kept).  The C++ asserts non-emptiness; the empty case is modelled as none.
The ad hoc path-substring debug printing of the original is omitted: it has
no effect on the returned value. -/
def preferredTarget (defaultToolchain : String) : List Target → Option Target
  | [] => none
  | t :: ts =>
    some (ts.foldl
      (fun largest cur =>
        if score defaultToolchain largest < score defaultToolchain cur then cur
        else largest)
      t)

/-- The ASCII whitespace set base::TrimString trims (kWhitespaceASCII). -/
def isSpaceChar (c : Char) : Bool :=
  c = ' ' || c = '\t' || c = '\n' || c = '\r' || c = '\x0b' || c = '\x0c'

/-- Drop leading whitespace characters. -/
def dropLeadingSpace : List Char → List Char
  | [] => []
  | c :: cs => if isSpaceChar c then dropLeadingSpace cs else c :: cs

/-- base::TrimWhitespaceASCII on one piece: strip both ends. -/
def trimStr (s : String) : String :=
  ⟨(dropLeadingSpace (dropLeadingSpace s.data).reverse).reverse⟩

/-- Split a character list at every separator occurrence, keeping empty
pieces; cur accumulates the current piece in reverse. -/
def splitCharsOnEq : List Char → List Char → List String
  | [], cur => [⟨cur.reverse⟩]
  | c :: cs, cur =>
    if c = '=' then ⟨cur.reverse⟩ :: splitCharsOnEq cs []
    else splitCharsOnEq cs (c :: cur)

/-- base::SplitString(s, "=", TRIM_WHITESPACE, SPLIT_WANT_ALL): split at every
separator, keep empty pieces, trim whitespace from each piece. -/
def splitEnvVar (s : String) : List String :=
  (splitCharsOnEq s.data []).map trimStr

/-- The environment-variable loop of AddCrate: each declared entry is split;
when at least two pieces result, the first two become the recorded pair. -/
def addRustenvEntries (c : Crate) (envVars : List String) : Crate :=
  envVars.foldl
    (fun c envVar =>
      match splitEnvVar envVar with
      | a :: b :: _ => c.addRustenv a b
      | _ => c)
    c

/-- The name/value split the specification describes for claim comparison:
the name is everything before the first separator, the value everything
after it; entries with no separator yield nothing. -/
def splitFirstEqSpec (s : String) : Option (String × String) :=
  match splitCharsOnEq s.data [] with
  | [] => none
  | [_] => none
  | a :: rest => some (a, String.intercalate "=" rest)

/-- RustTool::kRsToolMacro.  Modelled from the spec: the rust tool definitions
are not in the excerpt; only equality with this distinguished name is ever
used, so its exact text is immaterial. -/
def kRsToolMacroName : String := "rust_macro"

/-- Per-crate bookkeeping (struct CrateInfo): the targets that build the
crate, the depth-first-traversal seen flag, and the index assigned when the
crate's record is appended. -/
structure CrateInfo where
  targets : List Target
  seen : Bool
  index : Option Nat

/-- The default-constructed CrateInfo produced by unordered_map operator[]. -/
def CrateInfo.empty : CrateInfo := ⟨[], false, none⟩

/-- unordered_map operator[] followed by a mutation of the mapped value:
update the entry in place, default-constructing it when absent. -/
def assocUpdate (k : String) (f : CrateInfo → CrateInfo) :
    List (String × CrateInfo) → List (String × CrateInfo)
  | [] => [(k, f CrateInfo.empty)]
  | (k2, v) :: rest =>
    if k2 = k then (k2, f v) :: rest else (k2, v) :: assocUpdate k f rest

/-- The mutable state threaded through AddCrate: the crate-info map, the
per-sysroot lookup, and the ordered crate list. -/
structure ResolveState where
  lookup : List (String × CrateInfo)
  sysrootLookup : List (String × List (String × Nat))
  crateList : List Crate

/-- crate_info.seen = true. -/
def markSeen (crateRoot : String) (st : ResolveState) : ResolveState :=
  { st with lookup := assocUpdate crateRoot (fun i => { i with seen := true }) st.lookup }

/-- crate_info.index = crate_index. -/
def setIndexAt (crateRoot : String) (crateIndex : Nat) (st : ResolveState) : ResolveState :=
  { st with lookup := assocUpdate crateRoot (fun i => { i with index := some crateIndex }) st.lookup }

/-- The dependency-gathering loop of AddCrate: run GetRustDeps over every
candidate target in the crate's exact main-target toolchain, accumulating
into one dependency set.  (The path-substring debug printing of the original
is omitted; it does not affect the computed set.) -/
def collectCrateDeps (mainTarget : Target) (allTargets : List Target) : List String :=
  allTargets.foldl
    (fun crateDeps target =>
      if target.data.toolchain ≠ mainTarget.data.toolchain then crateDeps
      else getRustDeps target crateDeps)
    []

/-- The final dependency-edge loop of AddCrate: for every gathered dependency
other than the crate itself, look up its info; when its index is assigned,
add an edge carrying the dependency crate's recorded name, and otherwise
skip the edge (the original prints a debug line in that branch).  The name
read crate_list[index] is modelled with get?; an out-of-range index (never
reachable, since assigned indices are list positions) yields "". -/
def recordDepEdges (c : Crate) (crateRoot : String) (crateDeps : List String)
    (lookup : List (String × CrateInfo)) (crateList : List Crate) : Crate :=
  crateDeps.foldl
    (fun c dep =>
      if dep = crateRoot then c
      else
        let info := (assocFind dep lookup).getD CrateInfo.empty
        match info.index with
        | some idx => c.addDependency idx (((crateList.get? idx).map Crate.name).getD "")
        | none => c)
    c

/-- The sysroot-dependency block of AddCrate: when a sysroot is in use, add
edges on its core, alloc and std crates (only those present in the
per-sysroot lookup), plus proc_macro for a procedural-macro crate. -/
def addCrateSysrootDeps (c : Crate) (currentSysroot : String) (mainTarget : Target)
    (st : ResolveState) : Crate :=
  if currentSysroot ≠ "" then
    let sysroot := (assocFind currentSysroot st.sysrootLookup).getD []
    let c := addSysrootDependencyToCrate c sysroot "core"
    let c := addSysrootDependencyToCrate c sysroot "alloc"
    let c := addSysrootDependencyToCrate c sysroot "std"
    -- Proc macros have the proc_macro crate as a direct dependency.
    if mainTarget.data.toolName = kRsToolMacroName then
      addSysrootDependencyToCrate c sysroot "proc_macro"
    else c
  else c

/-- The proc-macro block of AddCrate: for a procedural-macro crate with at
least one computed output, record the first output artifact. -/
def setProcMacroOutputIfNeeded (c : Crate) (mainTarget : Target) : Crate :=
  if mainTarget.data.toolName = kRsToolMacroName then
    match mainTarget.data.outputs with
    | firstOut :: _ => c.setProcMacroOutput firstOut
    | [] => c
  else c

/-- The record-population block of AddCrate (source lines 353-440): compute
the edition and gen dir, construct the Crate at the next index, then apply
the metadata-accumulation calls in source order.  st is the state after the
recursive dependency resolution, with the crate's index already assigned
(the C++ assigns crate_info.index just before emplace_back). -/
def buildCrateRecord (bs : BuildSettings) (crateRoot : String)
    (allTargets : List Target) (mainTarget : Target) (compilerArgs : List String)
    (compilerTargetV : Option String) (currentSysroot : String)
    (crateDeps : List String) (st : ResolveState) : Crate :=
  let edition :=
    match findArgValueAfterPfx "--edition=" compilerArgs with
    | some e => some e
    | none => findArgValue "--edition" compilerArgs
  let genDir := mainTarget.data.genDir
  let crateIndex := st.crateList.length
  let c : Crate :=
    { root := crateRoot, targets := allTargets, genDir := some genDir,
      index := crateIndex, name := mainTarget.data.crateName,
      label := mainTarget.data.label, edition := edition.getD "2015" }
  let c := c.setCompilerArgs compilerArgs
  let c :=
    match compilerTargetV with
    | some v => c.setCompilerTargetTriple v
    | none => c
  let c := (c.addConfigItem "test").addConfigItem "debug_assertions"
  -- Add configs from the main target.
  let c := (findAllArgValuesAfterPfx "--cfg=" compilerArgs).foldl Crate.addConfigItem c
  -- "Also add configs from other targets in the same toolchain": the C++
  -- iterates all_targets after std::move(all_targets) emptied it when
  -- constructing the crate record, so this loop visits nothing.
  let movedFromTargets : List Target := []
  let c := movedFromTargets.foldl
    (fun c target =>
      if target.data.toolchain ≠ mainTarget.data.toolchain then c
      else (findAllArgValuesAfterPfx "--cfg=" (extractCompilerArgs target)).foldl
        Crate.addConfigItem c)
    c
  -- Add the sysroot dependencies, if there is one.
  let c := addCrateSysrootDeps c currentSysroot mainTarget st
  -- If it's a proc macro, record its output location.
  let c := setProcMacroOutputIfNeeded c mainTarget
  -- Note any environment variables.
  let c := addRustenvEntries c mainTarget.data.rustenv
  -- Add the rest of the crate dependencies.
  recordDepEdges c crateRoot crateDeps st.lookup st.crateList

/-- The recursive-dependency loop of AddCrate, parameterized by the
recursive resolution call: resolve every gathered dependency root other than
the crate itself, in order, propagating failure. -/
def addCrateDeps (resolve : String → ResolveState → Option ResolveState) :
    String → List String → ResolveState → Option ResolveState
  | _, [], st => some st
  | crateRoot, dep :: rest, st =>
    if dep = crateRoot then addCrateDeps resolve crateRoot rest st
    else
      match resolve dep st with
      | none => none
      | some st => addCrateDeps resolve crateRoot rest st

/-- The body of AddCrate, with the recursive call abstracted.  Returns none
on the failure paths of the C++ (unordered_map::at throwing for an unseeded
dependency root, the empty-candidate assertion). -/
def addCrateStep (bs : BuildSettings) (defaultToolchain : String)
    (resolve : String → ResolveState → Option ResolveState)
    (crateRoot : String) (st : ResolveState) : Option ResolveState :=
  match assocFind crateRoot st.lookup with
  | none => none
  | some info =>
    if info.seen then
      -- If the crate was already seen, we don't add it again.
      some st
    else
      let st := markSeen crateRoot st
      match preferredTarget defaultToolchain info.targets with
      | none => none
      | some mainTarget =>
        let compilerArgs := extractCompilerArgs mainTarget
        let compilerTargetV := findArgValue "--target" compilerArgs
        -- Check what sysroot this target needs.
        let currentSysroot := mainTarget.data.sysroot
        let st :=
          if currentSysroot ≠ "" ∧ assocFind currentSysroot st.sysrootLookup = none then
            let (sl, cl) := addSysroot bs currentSysroot st.sysrootLookup st.crateList
            { st with sysrootLookup := sl, crateList := cl }
          else st
        -- Gather dependencies from targets in the main target's toolchain.
        let crateDeps := collectCrateDeps mainTarget info.targets
        -- Recursively add dependency crates so they get assigned IDs first.
        match addCrateDeps resolve crateRoot crateDeps st with
        | none => none
        | some st =>
          let st2 := setIndexAt crateRoot st.crateList.length st
          let c := buildCrateRecord bs crateRoot info.targets mainTarget
            compilerArgs compilerTargetV currentSysroot crateDeps st2
          some { st2 with crateList := st2.crateList ++ [c] }

/-- AddCrate: the recursive resolution of one crate root.  The fuel argument
is a totality device; the top-level driver passes enough for every input. -/
def addCrate (bs : BuildSettings) (defaultToolchain : String) :
    Nat → String → ResolveState → Option ResolveState
  | 0 => fun _ _ => none
  | fuel + 1 => addCrateStep bs defaultToolchain (addCrate bs defaultToolchain fuel)

/-- The discovery scan of RenderJSON: seed one CrateInfo per discovered crate
root, pushing every binary Rust target onto its root's candidate list. -/
def seedLookup (allTargets : List Target) : List (String × CrateInfo) :=
  allTargets.foldl
    (fun lookup target =>
      if target.data.isBinary && target.data.rustSourceUsed then
        assocUpdate target.data.crateRoot
          (fun info => { info with targets := info.targets ++ [target] }) lookup
      else lookup)
    []

/-- The crate-list generation loop of RenderJSON: visit every seeded root in
order.  The fuel bound exceeds the number of distinct roots, so the
recursion never exhausts it. -/
def addAllCrates (bs : BuildSettings) (defaultToolchain : String) (fuel : Nat) :
    List String → ResolveState → Option ResolveState
  | [], st => some st
  | root :: rest, st =>
    match addCrate bs defaultToolchain fuel root st with
    | none => none
    | some st => addAllCrates bs defaultToolchain fuel rest st

/-- RenderJSON up to (and excluding) serialization: the discovery scan
followed by crate-list generation. -/
def generateCrateList (bs : BuildSettings) (defaultToolchain : String)
    (allTargets : List Target) : Option ResolveState :=
  let lookup := seedLookup allTargets
  addAllCrates bs defaultToolchain (lookup.length + 1) (lookup.map Prod.fst)
    ⟨lookup, [], []⟩

/-- One stream insertion of WriteCrates: either a fixed string literal of the
source (lit, with adjacent C string literals merged as the preprocessor
does), or a computed value (val).  The final output is the concatenation of
the rendered insertions; keys of the JSON objects are emitted only through
lit insertions. -/
inductive Op where
  | lit (s : String)
  | val (s : String)
deriving DecidableEq

/-- The string an insertion contributes to the stream. -/
def Op.render : Op → String
  | .lit s => s
  | .val s => s

/-- NEWLINE (the non-Windows variant). -/
def newlineStr : String := "\n"

/-- The dependency-array loop of WriteCrates (with its leading-comma flag). -/
def depSeq : List (Nat × String) → Bool → List Op
  | [], _ => []
  | dep :: rest, firstDep =>
    (if firstDep then [] else [Op.lit ","]) ++
    [Op.lit "\n", Op.lit "        \x7b\n", Op.lit "          \"crate\": ",
     Op.val (toString dep.1), Op.lit ",\n", Op.lit "          \"name\": \"",
     Op.val dep.2, Op.lit "\"\n", Op.lit "        \x7d"] ++
    depSeq rest false

/-- The compiler_args loop of WriteCrates. -/
def argSeq (bs : BuildSettings) : List String → Bool → List Op
  | [], _ => []
  | arg :: rest, firstArg =>
    (if firstArg then [] else [Op.lit ", "]) ++
    [Op.lit "\"", Op.val (bs.escapeJSON arg), Op.lit "\""] ++
    argSeq bs rest false

/-- The cfg-array loop of WriteCrates. -/
def cfgSeq (bs : BuildSettings) : List String → Bool → List Op
  | [], _ => []
  | cfg :: rest, firstCfg =>
    (if firstCfg then [] else [Op.lit ","]) ++
    [Op.lit "\n", Op.lit "        \"", Op.val (bs.escapeJSON cfg), Op.lit "\""] ++
    cfgSeq bs rest false

/-- The env-object loop of WriteCrates. -/
def envSeq (bs : BuildSettings) : List (String × String) → Bool → List Op
  | [], _ => []
  | env :: rest, firstEnv =>
    (if firstEnv then [] else [Op.lit ","]) ++
    [Op.lit "\n", Op.lit "        \"", Op.val (bs.escapeJSON env.1),
     Op.lit "\": \"", Op.val (bs.escapeJSON env.2), Op.lit "\""] ++
    envSeq bs rest false

/-- The per-crate body of WriteCrates (everything inside the crate loop after
the separating comma), as the sequence of stream insertions of the source. -/
def writeCrateOps (bs : BuildSettings) (c : Crate) : List Op :=
  [Op.lit "\n", Op.lit "    \x7b\n", Op.lit "      \"crate_id\": ",
   Op.val (toString c.index), Op.lit ",\n", Op.lit "      \"root_module\": \"",
   Op.val (bs.fullPath c.root), Op.lit "\",\n", Op.lit "      \"label\": \"",
   Op.val c.label, Op.lit "\",\n", Op.lit "      \"source\": \x7b\n",
   Op.lit "          \"include_dirs\": [\n", Op.lit "               \"",
   Op.val (bs.fullPath (bs.dirOf c.root)), Op.lit "\""] ++
  (match c.genDir with
   | some g =>
     [Op.lit ",\n", Op.lit "               \"", Op.val (bs.genDirSourcePath g),
      Op.lit "\"\n"]
   | none => [Op.lit "\n"]) ++
  [Op.lit "          ],\n", Op.lit "          \"exclude_dirs\": []\n",
   Op.lit "      \x7d,\n"] ++
  (match c.compilerTargetTriple with
   | some t => [Op.lit "      \"target\": \"", Op.val t, Op.lit "\",\n"]
   | none => []) ++
  (if c.compilerArgs.isEmpty then []
   else [Op.lit "      \"compiler_args\": ["] ++ argSeq bs c.compilerArgs true ++
     [Op.lit "],", Op.lit "\n"]) ++
  [Op.lit "      \"deps\": ["] ++ depSeq c.deps true ++
  [Op.lit "\n      ],\n"] ++
  [Op.lit "      \"edition\": \"", Op.val c.edition, Op.lit "\",\n"] ++
  (match c.procMacroDylib with
   | some p =>
     [Op.lit "      \"is_proc_macro\": true,\n",
      Op.lit "      \"proc_macro_dylib_path\": \"",
      Op.val (bs.outputFileSourcePath p), Op.lit "\",\n"]
   | none => []) ++
  [Op.lit "      \"cfg\": ["] ++ cfgSeq bs c.configs true ++
  [Op.lit "\n", Op.lit "      ]"] ++
  (if c.rustenv.isEmpty then [Op.lit "\n"]
   else [Op.lit ",\n", Op.lit "      \"env\": \x7b"] ++ envSeq bs c.rustenv true ++
     [Op.lit "\n", Op.lit "      \x7d\n"]) ++
  [Op.lit "    \x7d"]

/-- The crate loop of WriteCrates, with the first_crate comma flag. -/
def crateSeq (bs : BuildSettings) : List Crate → Bool → List Op
  | [], _ => []
  | c :: rest, firstCrate =>
    (if firstCrate then [] else [Op.lit ","]) ++ writeCrateOps bs c ++
    crateSeq bs rest false

/-- WriteCrates, as its full sequence of stream insertions. -/
def writeCratesOps (bs : BuildSettings) (crateList : List Crate) : List Op :=
  [Op.lit "\x7b\n", Op.lit "  \"crates\": ["] ++ crateSeq bs crateList true ++
  [Op.lit "\n  ]\n", Op.lit "\x7d\n"]

/-- The manifest text WriteCrates emits. -/
def writeCrates (bs : BuildSettings) (crateList : List Crate) : String :=
  ((writeCratesOps bs crateList).map Op.render).foldl (fun s t => s ++ t) ""

/-- RenderJSON: generate the crate list, then serialize it. -/
def renderJSON (bs : BuildSettings) (defaultToolchain : String)
    (allTargets : List Target) : Option String :=
  (generateCrateList bs defaultToolchain allTargets).map
    (fun st => writeCrates bs st.crateList)

/-! ### Derived record forms, invariants and concrete instances -/

/-- The record AddSysrootCrate appends for a built-in crate. -/
def sysrootCrateRecord (bs : BuildSettings) (sysroot : String) (nm : String)
    (idx : Nat) (es : List (Nat × String)) : Crate :=
  { root := bs.buildDirPath ++ sysroot ++ "/lib/rustlib/src/rust/library/" ++ nm ++ "/src/lib.rs",
    targets := [], genDir := none, index := idx, name := nm, label := nm,
    edition := "2018", deps := es, configs := ["debug_assertions"] }

/-- The per-sysroot crate-name-to-handle table AddSysroot builds, when the
crate list had n entries at the time of the call. -/
def sysrootInnerMap (n : Nat) : List (String × Nat) :=
  [("core", n), ("alloc", n + 1), ("panic_abort", n + 2), ("unwind", n + 3),
   ("std", n + 4), ("panic_unwind", n + 5), ("proc_macro", n + 6), ("test", n + 7)]

/-- The eight records AddSysroot appends, in synthesis order, when the crate
list had n entries at the time of the call. -/
def sysrootNewCrates (bs : BuildSettings) (sysroot : String) (n : Nat) : List Crate :=
  [sysrootCrateRecord bs sysroot "core" n [],
   sysrootCrateRecord bs sysroot "alloc" (n + 1) [(n, "core")],
   sysrootCrateRecord bs sysroot "panic_abort" (n + 2) [],
   sysrootCrateRecord bs sysroot "unwind" (n + 3) [],
   sysrootCrateRecord bs sysroot "std" (n + 4)
     [(n + 1, "alloc"), (n, "core"), (n + 2, "panic_abort"), (n + 3, "unwind")],
   sysrootCrateRecord bs sysroot "panic_unwind" (n + 5) [],
   sysrootCrateRecord bs sysroot "proc_macro" (n + 6) [],
   sysrootCrateRecord bs sysroot "test" (n + 7) []]

/-- The per-record invariants: every dependency edge refers to a strictly
smaller handle, and the recorded compile-target triple is exactly what
FindArgValue("--target") extracts from the recorded compiler arguments. -/
def crateOk (c : Crate) : Prop :=
  (∀ e ∈ c.deps, e.1 < c.index) ∧
  c.compilerTargetTriple = findArgValue "--target" c.compilerArgs

/-- The resolution-state invariants: every appended record satisfies crateOk,
and every handle memoized in the crate-info map or in a per-sysroot table
refers to an already-appended record. -/
def stateOk (st : ResolveState) : Prop :=
  (∀ c ∈ st.crateList, crateOk c) ∧
  (∀ p ∈ st.lookup, ∀ n, p.2.index = some n → n < st.crateList.length) ∧
  (∀ q ∈ st.sysrootLookup, ∀ e ∈ q.2, e.2 < st.crateList.length)

/-- The insertion that opens a crate element's crate_id key. -/
def crateIdLit : Op := Op.lit "      \"crate_id\": "

/-- The insertion that opens the env key. -/
def envKeyLit : Op := Op.lit "      \"env\": \x7b"

/-- The insertion that emits the is_proc_macro key. -/
def procKeyLit : Op := Op.lit "      \"is_proc_macro\": true,\n"

/-- The insertion that opens the cfg key. -/
def cfgKeyLit : Op := Op.lit "      \"cfg\": ["

/-- The number of occurrences of an insertion in a trace. -/
def countOp (o : Op) : List Op → Nat
  | [] => 0
  | x :: rest => (if x = o then 1 else 0) + countOp o rest

/-- A concrete BuildSettings instance for witnesses. -/
def bsW : BuildSettings :=
  ⟨"BD/", fun s => s, fun s => s, fun s => s, fun s => s, fun s => s⟩

/-- A default Crate used only to totalize get? projections in witnesses. -/
def crateDefault : Crate := ⟨"", [], none, 0, "", "", "", [], [], [], none, none, []⟩

/-- The std record synthesized for sysroot SR on an empty crate list. -/
def c8c : Crate :=
  sysrootCrateRecord bsW "SR" "std" (0 + 4)
    [(0 + 1, "alloc"), (0, "core"), (0 + 2, "panic_abort"), (0 + 3, "unwind")]

def c1BStub : Target :=
  Target.mk ⟨false, true, false, "B", "tc", false, [], [], "", "", [], "b", "//b", "gB"⟩ TargetList.nil

def c1A : Target :=
  Target.mk ⟨true, true, false, "A", "tc", false, [], [], "", "", [], "a", "//a", "gA"⟩
    (TargetList.cons c1BStub TargetList.nil)

def c1B : Target :=
  Target.mk ⟨true, true, false, "B", "tc", false, [], [], "", "", [], "b", "//b", "gB"⟩ TargetList.nil

def c1State : ResolveState := (generateCrateList bsW "tc" [c1A, c1B]).getD ⟨[], [], []⟩

def c1Crate : Crate := (c1State.crateList.get? 1).getD crateDefault

def c2AStub : Target :=
  Target.mk ⟨false, true, false, "A", "tc", false, [], [], "", "", [], "a", "//a", "gA"⟩ TargetList.nil

def c2BStub : Target :=
  Target.mk ⟨false, true, false, "B", "tc", false, [], [], "", "", [], "b", "//b", "gB"⟩ TargetList.nil

def c2A : Target :=
  Target.mk ⟨true, true, false, "A", "tc", false, [], [], "", "", [], "a", "//a", "gA"⟩
    (TargetList.cons c2BStub TargetList.nil)

def c2B : Target :=
  Target.mk ⟨true, true, false, "B", "tc", false, [], [], "", "", [], "b", "//b", "gB"⟩
    (TargetList.cons c2AStub TargetList.nil)

def c3T : Target :=
  Target.mk ⟨true, true, false, "R", "tc", false, [["--target=x86_64-foo"]], [], "", "",
    [], "r", "//r", "g"⟩ TargetList.nil

def c3W : Target :=
  Target.mk ⟨true, true, false, "R", "tc", false, [["--target", "tri"]], [], "", "",
    [], "r", "//r", "g"⟩ TargetList.nil

def c3State : ResolveState := (generateCrateList bsW "tc" [c3W]).getD ⟨[], [], []⟩

def c3Crate : Crate := (c3State.crateList.get? 0).getD crateDefault

def c4T1 : Target :=
  Target.mk ⟨true, true, false, "R", "other", false, [], [], "", "", [], "r", "//r1", "g"⟩ TargetList.nil

def c4T2 : Target :=
  Target.mk ⟨true, true, false, "R", "dt", true, [], [], "", "", [], "r", "//r2", "g"⟩ TargetList.nil

def c4T3 : Target :=
  Target.mk ⟨true, true, false, "R", "dt", false, [], [], "", "", [], "r", "//r3", "g"⟩ TargetList.nil

/-- An empty crate record used by the environment-parsing counterexample. -/
def emptyCrateW : Crate := ⟨"", [], none, 0, "", "", "", [], [], [], none, none, []⟩

/-- A crate record with no environment entries and no proc-macro output,
used by the serialization witness. -/
def c9Crate : Crate :=
  ⟨"r", [], none, 0, "n", "//n", "2015", [], [], [], none, none, []⟩

/-! ### Basic lemmas about the record operations and association lists -/

@[simp] theorem Crate.addDependency_index (c : Crate) (i : Nat) (n : String) :
    (c.addDependency i n).index = c.index := rfl

@[simp] theorem Crate.addDependency_compilerArgs (c : Crate) (i : Nat) (n : String) :
    (c.addDependency i n).compilerArgs = c.compilerArgs := rfl

@[simp] theorem Crate.addDependency_triple (c : Crate) (i : Nat) (n : String) :
    (c.addDependency i n).compilerTargetTriple = c.compilerTargetTriple := rfl

@[simp] theorem Crate.addDependency_deps (c : Crate) (i : Nat) (n : String) :
    (c.addDependency i n).deps = c.deps ++ [(i, n)] := rfl

@[simp] theorem Crate.addConfigItem_index (c : Crate) (s : String) :
    (c.addConfigItem s).index = c.index := rfl

@[simp] theorem Crate.addConfigItem_compilerArgs (c : Crate) (s : String) :
    (c.addConfigItem s).compilerArgs = c.compilerArgs := rfl

@[simp] theorem Crate.addConfigItem_triple (c : Crate) (s : String) :
    (c.addConfigItem s).compilerTargetTriple = c.compilerTargetTriple := rfl

@[simp] theorem Crate.addConfigItem_deps (c : Crate) (s : String) :
    (c.addConfigItem s).deps = c.deps := rfl

@[simp] theorem Crate.addRustenv_index (c : Crate) (k v : String) :
    (c.addRustenv k v).index = c.index := rfl

@[simp] theorem Crate.addRustenv_deps (c : Crate) (k v : String) :
    (c.addRustenv k v).deps = c.deps := rfl

@[simp] theorem Crate.addRustenv_compilerArgs (c : Crate) (k v : String) :
    (c.addRustenv k v).compilerArgs = c.compilerArgs := rfl

@[simp] theorem Crate.addRustenv_triple (c : Crate) (k v : String) :
    (c.addRustenv k v).compilerTargetTriple = c.compilerTargetTriple := rfl

@[simp] theorem Crate.addRustenv_rustenv (c : Crate) (k v : String) :
    (c.addRustenv k v).rustenv = c.rustenv ++ [(k, v)] := rfl

theorem assocFind_mem {α : Type} {k : String} {v : α} :
    ∀ {l : List (String × α)}, assocFind k l = some v → (k, v) ∈ l := by
  intro l
  induction l with
  | nil => intro h; simp [assocFind] at h
  | cons p rest ih =>
    intro h
    rw [assocFind] at h
    split at h
    · rename_i heq
      cases h
      subst heq
      exact List.mem_cons_self _ _
    · exact List.mem_cons_of_mem _ (ih h)

theorem mem_assocUpdate {k : String} {f : CrateInfo → CrateInfo} :
    ∀ {l : List (String × CrateInfo)} {p : String × CrateInfo},
      p ∈ assocUpdate k f l →
      p ∈ l ∨ ∃ v, p = (k, f v) ∧ ((k, v) ∈ l ∨ v = CrateInfo.empty) := by
  intro l
  induction l with
  | nil =>
    intro p hp
    simp [assocUpdate] at hp
    exact Or.inr ⟨CrateInfo.empty, by simp [hp], Or.inr rfl⟩
  | cons q rest ih =>
    intro p hp
    rw [assocUpdate] at hp
    split at hp
    · rename_i heq
      rcases List.mem_cons.1 hp with h | h
      · exact Or.inr ⟨q.2, by simp [h, heq], Or.inl (by rw [← heq]; exact List.mem_cons_self _ _)⟩
      · exact Or.inl (List.mem_cons_of_mem _ h)
    · rcases List.mem_cons.1 hp with h | h
      · exact Or.inl (h ▸ List.mem_cons_self _ _)
      · rcases ih h with h2 | ⟨v, hv, hm⟩
        · exact Or.inl (List.mem_cons_of_mem _ h2)
        · exact Or.inr ⟨v, hv, hm.imp (List.mem_cons_of_mem _) id⟩

theorem assocFind_assocUpdate_ne {k k2 : String} (hne : k2 ≠ k)
    (f : CrateInfo → CrateInfo) :
    ∀ l : List (String × CrateInfo),
      assocFind k2 (assocUpdate k f l) = assocFind k2 l := by
  intro l
  induction l with
  | nil => simp [assocUpdate, assocFind, Ne.symm hne]
  | cons q rest ih =>
    rw [assocUpdate]
    split
    · rename_i heq
      rw [assocFind, assocFind]
      subst heq
      simp [Ne.symm hne]
    · rw [assocFind, assocFind, ih]

theorem mem_pushBack {v : List String} {x y : String} :
    y ∈ pushBack v x ↔ y ∈ v ∨ y = x := by
  unfold pushBack
  split
  · rename_i h
    constructor
    · exact Or.inl
    · rintro (hy | rfl)
      · exact hy
      · exact h
  · simp [or_comm]

theorem nodup_pushBack {v : List String} (h : v.Nodup) (x : String) :
    (pushBack v x).Nodup := by
  unfold pushBack
  split
  · exact h
  · rename_i hx
    simpa [List.nodup_append] using ⟨h, fun hy => hx hy⟩

/-! ### GetRustDeps is the dedup-fold of the specification's neighbor list -/

theorem foldl_pushBack_append (l1 l2 : List String) (acc : List String) :
    (l1 ++ l2).foldl pushBack acc = l2.foldl pushBack (l1.foldl pushBack acc) :=
  List.foldl_append _ _ _ _

mutual
theorem getRustDeps_eq_spec (t : Target) :
    ∀ acc, getRustDeps t acc = (crateNeighborRootsSpec t).foldl pushBack acc := by
  match t with
  | .mk d deps =>
    intro acc
    rw [getRustDeps, crateNeighborRootsSpec]
    exact getRustDepsList_eq_spec deps acc

theorem getRustDepsList_eq_spec (deps : TargetList) :
    ∀ acc, getRustDepsList deps acc =
      (crateNeighborRootsSpecList deps).foldl pushBack acc := by
  match deps with
  | .nil =>
    intro acc
    rw [getRustDepsList, crateNeighborRootsSpecList]
    rfl
  | .cons dep rest =>
    intro acc
    rw [getRustDepsList, crateNeighborRootsSpecList, foldl_pushBack_append,
      getRustDepsList_eq_spec rest]
    by_cases hrust : dep.data.rustSourceUsed
    · simp [hrust]
    · by_cases hgrp : dep.data.isGroup
      · simp [hrust, hgrp, getRustDeps_eq_spec dep]
      · simp [hrust, hgrp]
end

theorem nodup_foldl_pushBack (l : List String) :
    ∀ acc : List String, acc.Nodup → (l.foldl pushBack acc).Nodup := by
  induction l with
  | nil => intro acc h; exact h
  | cons x rest ih => intro acc h; exact ih _ (nodup_pushBack h x)

theorem mem_foldl_pushBack (l : List String) :
    ∀ (acc : List String) (y : String), y ∈ l.foldl pushBack acc ↔ y ∈ acc ∨ y ∈ l := by
  induction l with
  | nil => intro acc y; simp
  | cons x rest ih =>
    intro acc y
    rw [List.foldl_cons, ih, mem_pushBack]
    simp only [List.mem_cons]
    tauto

/-! ### PreferredTarget picks the earliest maximal-scoring candidate -/

theorem preferredFold_spec (dtc : String) :
    ∀ (ts : List Target) (t : Target),
      ∃ i r,
        (t :: ts).get? i = some r ∧
        ts.foldl
          (fun largest cur =>
            if score dtc largest < score dtc cur then cur else largest) t = r ∧
        (∀ u ∈ t :: ts, score dtc u ≤ score dtc r) ∧
        (∀ j u, j < i → (t :: ts).get? j = some u → score dtc u < score dtc r) := by
  intro ts
  induction ts with
  | nil =>
    intro t
    refine ⟨0, t, rfl, rfl, ?_, ?_⟩
    · intro u hu
      rcases List.mem_cons.1 hu with rfl | h
      · exact le_refl _
      · simp at h
    · intro j u hj _
      omega
  | cons u rest ih =>
    intro t
    obtain ⟨i2, r, hget, hfold, hmax, hpre⟩ :=
      ih (if score dtc t < score dtc u then u else t)
    by_cases hlt : score dtc t < score dtc u
    · rw [if_pos hlt] at hget hfold hmax hpre
      refine ⟨i2 + 1, r, ?_, ?_, ?_, ?_⟩
      · simpa using hget
      · rw [List.foldl_cons, if_pos hlt]
        exact hfold
      · intro v hv
        rcases List.mem_cons.1 hv with rfl | hv2
        · exact le_of_lt (lt_of_lt_of_le hlt (hmax u (List.mem_cons_self _ _)))
        · exact hmax v hv2
      · intro j v hj hv
        cases j with
        | zero =>
          simp only [List.get?_cons_zero, Option.some.injEq] at hv
          subst hv
          exact lt_of_lt_of_le hlt (hmax u (List.mem_cons_self _ _))
        | succ k =>
          simp only [List.get?_cons_succ] at hv
          exact hpre k v (by omega) hv
    · rw [if_neg hlt] at hget hfold hmax hpre
      cases i2 with
      | zero =>
        simp only [List.get?_cons_zero, Option.some.injEq] at hget
        refine ⟨0, r, by simp [hget], ?_, ?_, ?_⟩
        · rw [List.foldl_cons, if_neg hlt]
          exact hfold
        · intro v hv
          rcases List.mem_cons.1 hv with rfl | hv2
          · rw [← hget]
          · rcases List.mem_cons.1 hv2 with rfl | hv3
            · rw [← hget]
              omega
            · exact hmax v (List.mem_cons_of_mem _ hv3)
        · intro j v hj _
          omega
      | succ k =>
        refine ⟨k + 2, r, ?_, ?_, ?_, ?_⟩
        · simpa using hget
        · rw [List.foldl_cons, if_neg hlt]
          exact hfold
        · intro v hv
          rcases List.mem_cons.1 hv with rfl | hv2
          · exact hmax v (List.mem_cons_self _ _)
          · rcases List.mem_cons.1 hv2 with rfl | hv3
            · exact le_trans (by omega) (hmax t (List.mem_cons_self _ _))
            · exact hmax v (List.mem_cons_of_mem _ hv3)
        · intro j v hj hv
          have hstrict : score dtc t < score dtc r :=
            hpre 0 t (by omega) (List.get?_cons_zero)
          cases j with
          | zero =>
            simp only [List.get?_cons_zero, Option.some.injEq] at hv
            subst hv
            exact hstrict
          | succ m =>
            simp only [List.get?_cons_succ] at hv
            cases m with
            | zero =>
              simp only [List.get?_cons_zero, Option.some.injEq] at hv
              subst hv
              omega
            | succ m2 =>
              simp only [List.get?_cons_succ] at hv
              exact hpre (m2 + 1) v (by omega) (by simpa using hv)

/-! ### Closed form of sysroot synthesis -/

theorem addSysrootCrate_sim (bs : BuildSettings) (sr : String) :
    ∀ (fuel : Nat) (crate : String) (lk : List (String × Nat)) (cl : List Crate),
      addSysrootCrate bs sr fuel crate lk cl =
        ((addSysrootCrateN bs sr fuel crate lk cl.length).1,
         cl ++ (addSysrootCrateN bs sr fuel crate lk cl.length).2) := by
  intro fuel
  induction fuel with
  | zero => intro crate lk cl; simp [addSysrootCrate, addSysrootCrateN]
  | succ fuel ih =>
    have ihDeps : ∀ (deps : List String) (lk : List (String × Nat)) (cl : List Crate),
        addSysrootCrateDeps (addSysrootCrate bs sr fuel) deps lk cl =
          ((addSysrootCrateDepsN (addSysrootCrateN bs sr fuel) deps lk cl.length).1,
           cl ++ (addSysrootCrateDepsN (addSysrootCrateN bs sr fuel) deps lk
             cl.length).2) := by
      intro deps
      induction deps with
      | nil => intro lk cl; simp [addSysrootCrateDeps, addSysrootCrateDepsN]
      | cons dep rest ihd =>
        intro lk cl
        rw [addSysrootCrateDeps, addSysrootCrateDepsN]
        rw [ih dep lk cl]
        simp only []
        rw [ihd]
        simp [List.length_append, List.append_assoc]
    intro crate lk cl
    show addSysrootCrateStep bs sr (addSysrootCrate bs sr fuel) crate lk cl = _
    unfold addSysrootCrateStep
    by_cases hfound : (assocFind crate lk).isSome
    · simp [addSysrootCrateN, addSysrootCrateStepN, hfound]
    · cases hdeps : sysrootDepsMap crate with
      | none =>
        simp [addSysrootCrateN, addSysrootCrateStepN, hfound, hdeps]
      | some deps =>
        simp only [Bool.not_eq_true] at hfound
        simp only [hfound, Bool.false_eq_true, if_false, hdeps]
        rw [ihDeps deps lk cl]
        simp only [addSysrootCrateN, addSysrootCrateStepN, hfound, Bool.false_eq_true,
          if_false, hdeps]
        simp [List.length_append, List.append_assoc]

theorem addSysroot_loop_sim (bs : BuildSettings) (sr : String) (fuel : Nat) :
    ∀ (names : List String) (lk : List (String × Nat)) (cl : List Crate),
      names.foldl (fun p crate => addSysrootCrate bs sr fuel crate p.1 p.2) (lk, cl) =
        ((addSysrootLoopN bs sr fuel names lk cl.length).1,
         cl ++ (addSysrootLoopN bs sr fuel names lk cl.length).2) := by
  intro names
  induction names with
  | nil => intro lk cl; simp [addSysrootLoopN]
  | cons crate rest ihn =>
    intro lk cl
    rw [List.foldl_cons, addSysrootLoopN]
    show List.foldl _ (addSysrootCrate bs sr fuel crate lk cl) rest = _
    rw [addSysrootCrate_sim bs sr fuel crate lk cl]
    rw [ihn]
    simp [List.length_append, List.append_assoc]

theorem sysrootLoopN_eval (bs : BuildSettings) (sr : String) (n : Nat) :
    addSysrootLoopN bs sr sysrootCrateFuel sysrootCrates [] n =
      (sysrootInnerMap n, sysrootNewCrates bs sr n) := by
  have hstd : addSysrootCrateN bs sr sysrootCrateFuel "std" [] n =
      ([("core", n), ("alloc", n + 1), ("panic_abort", n + 2), ("unwind", n + 3),
        ("std", n + 4)],
       [sysrootCrateRecord bs sr "core" n [],
        sysrootCrateRecord bs sr "alloc" (n + 1) [(n, "core")],
        sysrootCrateRecord bs sr "panic_abort" (n + 2) [],
        sysrootCrateRecord bs sr "unwind" (n + 3) [],
        sysrootCrateRecord bs sr "std" (n + 4)
          [(n + 1, "alloc"), (n, "core"), (n + 2, "panic_abort"), (n + 3, "unwind")]]) :=
    rfl
  have hrest : addSysrootLoopN bs sr sysrootCrateFuel
      ["core", "alloc", "panic_unwind", "proc_macro", "test", "panic_abort", "unwind"]
      [("core", n), ("alloc", n + 1), ("panic_abort", n + 2), ("unwind", n + 3),
       ("std", n + 4)] (n + 5) =
      (sysrootInnerMap n,
       [sysrootCrateRecord bs sr "panic_unwind" (n + 5) [],
        sysrootCrateRecord bs sr "proc_macro" (n + 6) [],
        sysrootCrateRecord bs sr "test" (n + 7) []]) := rfl
  rw [sysrootCrates, addSysrootLoopN, hstd]
  simp only [List.length_cons, List.length_nil]
  norm_num
  rw [hrest]
  exact ⟨rfl, rfl⟩

set_option maxHeartbeats 1000000 in
theorem addSysroot_spec (bs : BuildSettings) (sysroot : String)
    (lk : List (String × List (String × Nat))) (cl : List Crate)
    (h : assocFind sysroot lk = none) :
    addSysroot bs sysroot lk cl =
      (lk ++ [(sysroot, sysrootInnerMap cl.length)],
       cl ++ sysrootNewCrates bs sysroot cl.length) := by
  unfold addSysroot
  rw [h]
  rw [if_neg (by simp : ¬((none : Option (List (String × Nat))).isSome = true))]
  rw [addSysroot_loop_sim bs sysroot sysrootCrateFuel sysrootCrates [] cl]
  rw [sysrootLoopN_eval bs sysroot cl.length]

/-! ### Characterizations of the record-population helpers -/

theorem recordDepEdges_deps (crateRoot : String) (crateDeps : List String)
    (lookup : List (String × CrateInfo)) (crateList : List Crate) :
    ∀ c : Crate,
      (recordDepEdges c crateRoot crateDeps lookup crateList).deps =
        c.deps ++ crateDeps.filterMap (fun dep =>
          if dep = crateRoot then none
          else
            match ((assocFind dep lookup).getD CrateInfo.empty).index with
            | some idx => some (idx, ((crateList.get? idx).map Crate.name).getD "")
            | none => none) := by
  induction crateDeps with
  | nil => intro c; simp [recordDepEdges]
  | cons dep rest ih =>
    intro c
    have hfold : ∀ c2 : Crate,
        recordDepEdges c2 crateRoot rest lookup crateList =
          rest.foldl
            (fun c dep =>
              if dep = crateRoot then c
              else
                let info := (assocFind dep lookup).getD CrateInfo.empty
                match info.index with
                | some idx =>
                  c.addDependency idx (((crateList.get? idx).map Crate.name).getD "")
                | none => c)
            c2 := by
      intro c2
      rw [recordDepEdges]
    rw [recordDepEdges, List.foldl_cons, List.filterMap_cons]
    by_cases hdep : dep = crateRoot
    · simp only [if_pos hdep, ← hfold, ih]
    · simp only [if_neg hdep]
      cases hidx : ((assocFind dep lookup).getD CrateInfo.empty).index with
      | none =>
        simp only [hidx, ← hfold, ih]
      | some idx =>
        simp only [hidx, ← hfold, ih, Crate.addDependency_deps]
        simp

theorem recordDepEdges_fields (crateRoot : String) (crateDeps : List String)
    (lookup : List (String × CrateInfo)) (crateList : List Crate) :
    ∀ c : Crate,
      (recordDepEdges c crateRoot crateDeps lookup crateList).index = c.index ∧
      (recordDepEdges c crateRoot crateDeps lookup crateList).compilerArgs = c.compilerArgs ∧
      (recordDepEdges c crateRoot crateDeps lookup crateList).compilerTargetTriple =
        c.compilerTargetTriple := by
  induction crateDeps with
  | nil => intro c; simp [recordDepEdges]
  | cons dep rest ih =>
    intro c
    have hfold : ∀ c2 : Crate,
        recordDepEdges c2 crateRoot rest lookup crateList =
          rest.foldl
            (fun c dep =>
              if dep = crateRoot then c
              else
                let info := (assocFind dep lookup).getD CrateInfo.empty
                match info.index with
                | some idx =>
                  c.addDependency idx (((crateList.get? idx).map Crate.name).getD "")
                | none => c)
            c2 := by
      intro c2
      rw [recordDepEdges]
    rw [recordDepEdges, List.foldl_cons]
    by_cases hdep : dep = crateRoot
    · simp only [if_pos hdep, ← hfold]
      exact ih c
    · simp only [if_neg hdep]
      cases hidx : ((assocFind dep lookup).getD CrateInfo.empty).index with
      | none =>
        simp only [hidx, ← hfold]
        exact ih c
      | some idx =>
        simp only [hidx, ← hfold]
        have h2 := ih (c.addDependency idx (((crateList.get? idx).map Crate.name).getD ""))
        simpa using h2

theorem addRustenvEntries_rustenv (envVars : List String) :
    ∀ c : Crate,
      (addRustenvEntries c envVars).rustenv =
        c.rustenv ++ envVars.filterMap (fun envVar =>
          match splitEnvVar envVar with
          | a :: b :: _ => some (a, b)
          | _ => none) := by
  induction envVars with
  | nil => intro c; simp [addRustenvEntries]
  | cons envVar rest ih =>
    intro c
    rw [addRustenvEntries, List.foldl_cons, List.filterMap_cons]
    cases hsp : splitEnvVar envVar with
    | nil =>
      have := ih c
      rw [addRustenvEntries] at this
      rw [this]
    | cons a tail =>
      cases tail with
      | nil =>
        have := ih c
        rw [addRustenvEntries] at this
        rw [this]
      | cons b tail2 =>
        have := ih (c.addRustenv a b)
        rw [addRustenvEntries] at this
        rw [this]
        simp

theorem addRustenvEntries_fields (envVars : List String) :
    ∀ c : Crate,
      (addRustenvEntries c envVars).index = c.index ∧
      (addRustenvEntries c envVars).deps = c.deps ∧
      (addRustenvEntries c envVars).compilerArgs = c.compilerArgs ∧
      (addRustenvEntries c envVars).compilerTargetTriple = c.compilerTargetTriple := by
  induction envVars with
  | nil => intro c; simp [addRustenvEntries]
  | cons envVar rest ih =>
    intro c
    rw [addRustenvEntries, List.foldl_cons]
    cases hsp : splitEnvVar envVar with
    | nil =>
      have := ih c
      rw [addRustenvEntries] at this
      exact this
    | cons a tail =>
      cases tail with
      | nil =>
        have := ih c
        rw [addRustenvEntries] at this
        exact this
      | cons b tail2 =>
        have := ih (c.addRustenv a b)
        rw [addRustenvEntries] at this
        simpa using this

theorem foldl_addConfigItem_fields (cfgs : List String) :
    ∀ c : Crate,
      (cfgs.foldl Crate.addConfigItem c).index = c.index ∧
      (cfgs.foldl Crate.addConfigItem c).deps = c.deps ∧
      (cfgs.foldl Crate.addConfigItem c).compilerArgs = c.compilerArgs ∧
      (cfgs.foldl Crate.addConfigItem c).compilerTargetTriple = c.compilerTargetTriple := by
  induction cfgs with
  | nil => intro c; simp
  | cons cfg rest ih =>
    intro c
    rw [List.foldl_cons]
    simpa using ih (c.addConfigItem cfg)

theorem addSysrootDependencyToCrate_fields (c : Crate) (sysroot : List (String × Nat))
    (nm : String) :
    (addSysrootDependencyToCrate c sysroot nm).index = c.index ∧
    (addSysrootDependencyToCrate c sysroot nm).compilerArgs = c.compilerArgs ∧
    (addSysrootDependencyToCrate c sysroot nm).compilerTargetTriple =
      c.compilerTargetTriple := by
  unfold addSysrootDependencyToCrate
  cases assocFind nm sysroot <;> simp

theorem addSysrootDependencyToCrate_deps_mem (c : Crate) (sysroot : List (String × Nat))
    (nm : String) :
    ∀ e ∈ (addSysrootDependencyToCrate c sysroot nm).deps,
      e ∈ c.deps ∨ (nm, e.1) ∈ sysroot := by
  unfold addSysrootDependencyToCrate
  cases hf : assocFind nm sysroot with
  | none => intro e he; exact Or.inl he
  | some idx =>
    intro e he
    simp only [Crate.addDependency_deps, List.mem_append, List.mem_singleton] at he
    rcases he with he | rfl
    · exact Or.inl he
    · exact Or.inr (assocFind_mem hf)

@[simp] theorem Crate.setCompilerArgs_index (c : Crate) (a : List String) :
    (c.setCompilerArgs a).index = c.index := rfl

@[simp] theorem Crate.setCompilerArgs_deps (c : Crate) (a : List String) :
    (c.setCompilerArgs a).deps = c.deps := rfl

@[simp] theorem Crate.setCompilerArgs_compilerArgs (c : Crate) (a : List String) :
    (c.setCompilerArgs a).compilerArgs = a := rfl

@[simp] theorem Crate.setCompilerArgs_triple (c : Crate) (a : List String) :
    (c.setCompilerArgs a).compilerTargetTriple = c.compilerTargetTriple := rfl

@[simp] theorem Crate.setCompilerTargetTriple_index (c : Crate) (t : String) :
    (c.setCompilerTargetTriple t).index = c.index := rfl

@[simp] theorem Crate.setCompilerTargetTriple_deps (c : Crate) (t : String) :
    (c.setCompilerTargetTriple t).deps = c.deps := rfl

@[simp] theorem Crate.setCompilerTargetTriple_compilerArgs (c : Crate) (t : String) :
    (c.setCompilerTargetTriple t).compilerArgs = c.compilerArgs := rfl

@[simp] theorem Crate.setCompilerTargetTriple_triple (c : Crate) (t : String) :
    (c.setCompilerTargetTriple t).compilerTargetTriple = some t := rfl

@[simp] theorem Crate.setProcMacroOutput_index (c : Crate) (o : String) :
    (c.setProcMacroOutput o).index = c.index := rfl

@[simp] theorem Crate.setProcMacroOutput_deps (c : Crate) (o : String) :
    (c.setProcMacroOutput o).deps = c.deps := rfl

@[simp] theorem Crate.setProcMacroOutput_compilerArgs (c : Crate) (o : String) :
    (c.setProcMacroOutput o).compilerArgs = c.compilerArgs := rfl

@[simp] theorem Crate.setProcMacroOutput_triple (c : Crate) (o : String) :
    (c.setProcMacroOutput o).compilerTargetTriple = c.compilerTargetTriple := rfl

@[simp] theorem recordDepEdges_index (c : Crate) (r : String) (ds : List String)
    (lk : List (String × CrateInfo)) (cl : List Crate) :
    (recordDepEdges c r ds lk cl).index = c.index :=
  (recordDepEdges_fields r ds lk cl c).1

@[simp] theorem recordDepEdges_compilerArgs (c : Crate) (r : String) (ds : List String)
    (lk : List (String × CrateInfo)) (cl : List Crate) :
    (recordDepEdges c r ds lk cl).compilerArgs = c.compilerArgs :=
  (recordDepEdges_fields r ds lk cl c).2.1

@[simp] theorem recordDepEdges_triple (c : Crate) (r : String) (ds : List String)
    (lk : List (String × CrateInfo)) (cl : List Crate) :
    (recordDepEdges c r ds lk cl).compilerTargetTriple = c.compilerTargetTriple :=
  (recordDepEdges_fields r ds lk cl c).2.2

@[simp] theorem addRustenvEntries_index (c : Crate) (ev : List String) :
    (addRustenvEntries c ev).index = c.index :=
  (addRustenvEntries_fields ev c).1

@[simp] theorem addRustenvEntries_deps (c : Crate) (ev : List String) :
    (addRustenvEntries c ev).deps = c.deps :=
  (addRustenvEntries_fields ev c).2.1

@[simp] theorem addRustenvEntries_compilerArgs (c : Crate) (ev : List String) :
    (addRustenvEntries c ev).compilerArgs = c.compilerArgs :=
  (addRustenvEntries_fields ev c).2.2.1

@[simp] theorem addRustenvEntries_triple (c : Crate) (ev : List String) :
    (addRustenvEntries c ev).compilerTargetTriple = c.compilerTargetTriple :=
  (addRustenvEntries_fields ev c).2.2.2

@[simp] theorem foldl_addConfigItem_index (cfgs : List String) (c : Crate) :
    (cfgs.foldl Crate.addConfigItem c).index = c.index :=
  (foldl_addConfigItem_fields cfgs c).1

@[simp] theorem foldl_addConfigItem_deps (cfgs : List String) (c : Crate) :
    (cfgs.foldl Crate.addConfigItem c).deps = c.deps :=
  (foldl_addConfigItem_fields cfgs c).2.1

@[simp] theorem foldl_addConfigItem_compilerArgs (cfgs : List String) (c : Crate) :
    (cfgs.foldl Crate.addConfigItem c).compilerArgs = c.compilerArgs :=
  (foldl_addConfigItem_fields cfgs c).2.2.1

@[simp] theorem foldl_addConfigItem_triple (cfgs : List String) (c : Crate) :
    (cfgs.foldl Crate.addConfigItem c).compilerTargetTriple = c.compilerTargetTriple :=
  (foldl_addConfigItem_fields cfgs c).2.2.2

@[simp] theorem addSysrootDependencyToCrate_index (c : Crate) (m : List (String × Nat))
    (nm : String) : (addSysrootDependencyToCrate c m nm).index = c.index :=
  (addSysrootDependencyToCrate_fields c m nm).1

@[simp] theorem addSysrootDependencyToCrate_compilerArgs (c : Crate)
    (m : List (String × Nat)) (nm : String) :
    (addSysrootDependencyToCrate c m nm).compilerArgs = c.compilerArgs :=
  (addSysrootDependencyToCrate_fields c m nm).2.1

@[simp] theorem addSysrootDependencyToCrate_triple (c : Crate)
    (m : List (String × Nat)) (nm : String) :
    (addSysrootDependencyToCrate c m nm).compilerTargetTriple = c.compilerTargetTriple :=
  (addSysrootDependencyToCrate_fields c m nm).2.2

@[simp] theorem addCrateSysrootDeps_index (c : Crate) (sys : String) (mt : Target)
    (st : ResolveState) : (addCrateSysrootDeps c sys mt st).index = c.index := by
  unfold addCrateSysrootDeps
  split
  · split <;> simp
  · rfl

@[simp] theorem addCrateSysrootDeps_compilerArgs (c : Crate) (sys : String) (mt : Target)
    (st : ResolveState) :
    (addCrateSysrootDeps c sys mt st).compilerArgs = c.compilerArgs := by
  unfold addCrateSysrootDeps
  split
  · split <;> simp
  · rfl

@[simp] theorem addCrateSysrootDeps_triple (c : Crate) (sys : String) (mt : Target)
    (st : ResolveState) :
    (addCrateSysrootDeps c sys mt st).compilerTargetTriple = c.compilerTargetTriple := by
  unfold addCrateSysrootDeps
  split
  · split <;> simp
  · rfl

theorem addCrateSysrootDeps_deps_mem (c : Crate) (sys : String) (mt : Target)
    (st : ResolveState) :
    ∀ e ∈ (addCrateSysrootDeps c sys mt st).deps,
      e ∈ c.deps ∨
      ∃ m, assocFind sys st.sysrootLookup = some m ∧ ∃ nm, (nm, e.1) ∈ m := by
  intro e he
  unfold addCrateSysrootDeps at he
  have step : ∀ (c2 : Crate) (nm : String),
      e ∈ (addSysrootDependencyToCrate c2
        ((assocFind sys st.sysrootLookup).getD []) nm).deps →
      e ∈ c2.deps ∨
      ∃ m, assocFind sys st.sysrootLookup = some m ∧ ∃ nm2, (nm2, e.1) ∈ m := by
    intro c2 nm h2
    rcases addSysrootDependencyToCrate_deps_mem c2 _ nm e h2 with h3 | h3
    · exact Or.inl h3
    · cases hf : assocFind sys st.sysrootLookup with
      | none => rw [hf] at h3; simp at h3
      | some m => rw [hf] at h3; exact Or.inr ⟨m, rfl, nm, h3⟩
  split at he
  · split at he
    · rcases step _ _ he with h2 | h2
      · rcases step _ _ h2 with h3 | h3
        · rcases step _ _ h3 with h4 | h4
          · rcases step _ _ h4 with h5 | h5
            · exact Or.inl h5
            · exact Or.inr h5
          · exact Or.inr h4
        · exact Or.inr h3
      · exact Or.inr h2
    · rcases step _ _ he with h2 | h2
      · rcases step _ _ h2 with h3 | h3
        · rcases step _ _ h3 with h4 | h4
          · exact Or.inl h4
          · exact Or.inr h4
        · exact Or.inr h3
      · exact Or.inr h2
  · exact Or.inl he

@[simp] theorem setProcMacroOutputIfNeeded_index (c : Crate) (mt : Target) :
    (setProcMacroOutputIfNeeded c mt).index = c.index := by
  unfold setProcMacroOutputIfNeeded
  split
  · split <;> simp
  · rfl

@[simp] theorem setProcMacroOutputIfNeeded_deps (c : Crate) (mt : Target) :
    (setProcMacroOutputIfNeeded c mt).deps = c.deps := by
  unfold setProcMacroOutputIfNeeded
  split
  · split <;> simp
  · rfl

@[simp] theorem setProcMacroOutputIfNeeded_compilerArgs (c : Crate) (mt : Target) :
    (setProcMacroOutputIfNeeded c mt).compilerArgs = c.compilerArgs := by
  unfold setProcMacroOutputIfNeeded
  split
  · split <;> simp
  · rfl

@[simp] theorem setProcMacroOutputIfNeeded_triple (c : Crate) (mt : Target) :
    (setProcMacroOutputIfNeeded c mt).compilerTargetTriple = c.compilerTargetTriple := by
  unfold setProcMacroOutputIfNeeded
  split
  · split <;> simp
  · rfl

theorem buildCrateRecord_index (bs : BuildSettings) (crateRoot : String)
    (allT : List Target) (mt : Target) (args : List String) (tv : Option String)
    (sys : String) (ds : List String) (st : ResolveState) :
    (buildCrateRecord bs crateRoot allT mt args tv sys ds st).index =
      st.crateList.length := by
  unfold buildCrateRecord
  cases tv <;> simp

theorem buildCrateRecord_compilerArgs (bs : BuildSettings) (crateRoot : String)
    (allT : List Target) (mt : Target) (args : List String) (tv : Option String)
    (sys : String) (ds : List String) (st : ResolveState) :
    (buildCrateRecord bs crateRoot allT mt args tv sys ds st).compilerArgs = args := by
  unfold buildCrateRecord
  cases tv <;> simp

theorem buildCrateRecord_triple (bs : BuildSettings) (crateRoot : String)
    (allT : List Target) (mt : Target) (args : List String) (tv : Option String)
    (sys : String) (ds : List String) (st : ResolveState) :
    (buildCrateRecord bs crateRoot allT mt args tv sys ds st).compilerTargetTriple =
      tv := by
  unfold buildCrateRecord
  cases tv <;> simp

theorem buildCrateRecord_deps_mem (bs : BuildSettings) (crateRoot : String)
    (allT : List Target) (mt : Target) (args : List String) (tv : Option String)
    (sys : String) (ds : List String) (st : ResolveState) :
    ∀ e ∈ (buildCrateRecord bs crateRoot allT mt args tv sys ds st).deps,
      (∃ m, assocFind sys st.sysrootLookup = some m ∧ ∃ nm, (nm, e.1) ∈ m) ∨
      (∃ dep info, dep ≠ crateRoot ∧ assocFind dep st.lookup = some info ∧
        info.index = some e.1) := by
  intro e he
  unfold buildCrateRecord at he
  rw [recordDepEdges_deps] at he
  rcases List.mem_append.1 he with hL | hR
  · -- an edge added before the final dependency loop: from the sysroot block
    rw [addRustenvEntries_deps, setProcMacroOutputIfNeeded_deps] at hL
    have hbase := addCrateSysrootDeps_deps_mem _ sys mt st e hL
    rcases hbase with hb | hb
    · -- the crate had no edges before the sysroot block
      cases tv <;> simp at hb
    · exact Or.inl hb
  · -- an edge added by the final dependency loop: from an assigned index
    rcases List.mem_filterMap.1 hR with ⟨dep, _, hf⟩
    by_cases hdep : dep = crateRoot
    · rw [if_pos hdep] at hf
      cases hf
    · rw [if_neg hdep] at hf
      cases hfind : assocFind dep st.lookup with
      | none =>
        rw [hfind] at hf
        simp [CrateInfo.empty] at hf
      | some info =>
        rw [hfind] at hf
        cases hidx : info.index with
        | none => simp [hidx] at hf
        | some idx =>
          simp only [Option.getD_some, hidx] at hf
          cases hf
          exact Or.inr ⟨dep, info, hdep, hfind, by rw [hidx]⟩

/-! ### The handle-ordering invariant of the resolution state -/

@[simp] theorem markSeen_sysrootLookup (root : String) (st : ResolveState) :
    (markSeen root st).sysrootLookup = st.sysrootLookup := rfl

@[simp] theorem markSeen_crateList (root : String) (st : ResolveState) :
    (markSeen root st).crateList = st.crateList := rfl

@[simp] theorem setIndexAt_sysrootLookup (root : String) (n : Nat) (st : ResolveState) :
    (setIndexAt root n st).sysrootLookup = st.sysrootLookup := rfl

@[simp] theorem setIndexAt_crateList (root : String) (n : Nat) (st : ResolveState) :
    (setIndexAt root n st).crateList = st.crateList := rfl

theorem sysrootNewCrates_ok (bs : BuildSettings) (sys : String) (n : Nat) :
    ∀ c ∈ sysrootNewCrates bs sys n, crateOk c := by
  intro c hc
  simp only [sysrootNewCrates, List.mem_cons, List.not_mem_nil, or_false] at hc
  rcases hc with rfl | rfl | rfl | rfl | rfl | rfl | rfl | rfl <;>
    refine ⟨?_, by simp [sysrootCrateRecord, findArgValue]⟩ <;>
    intro e he <;>
    simp only [sysrootCrateRecord, List.mem_cons, List.not_mem_nil, or_false] at he ⊢ <;>
    first
      | simp at he
      | (rcases he with rfl | rfl | rfl | rfl <;> simp <;> omega)

theorem stateOk_markSeen (root : String) (st : ResolveState) (h : stateOk st) :
    stateOk (markSeen root st) := by
  obtain ⟨h1, h2, h3⟩ := h
  refine ⟨h1, ?_, h3⟩
  intro p hp n hn
  rcases mem_assocUpdate hp with hmem | ⟨v, rfl, hv⟩
  · exact h2 p hmem n hn
  · simp only at hn
    rcases hv with hv | rfl
    · exact h2 (root, v) hv n hn
    · simp [CrateInfo.empty] at hn

theorem stateOk_addSysrootBranch (bs : BuildSettings) (st : ResolveState) (cs : String)
    (hOk : stateOk st) (habs : assocFind cs st.sysrootLookup = none) :
    stateOk { st with
      sysrootLookup := (addSysroot bs cs st.sysrootLookup st.crateList).1,
      crateList := (addSysroot bs cs st.sysrootLookup st.crateList).2 } := by
  obtain ⟨h1, h2, h3⟩ := hOk
  rw [addSysroot_spec bs cs st.sysrootLookup st.crateList habs]
  have hlen : (st.crateList ++ sysrootNewCrates bs cs st.crateList.length).length =
      st.crateList.length + 8 := by
    simp [sysrootNewCrates]
  refine ⟨?_, ?_, ?_⟩
  · intro c hc
    rcases List.mem_append.1 hc with hc | hc
    · exact h1 c hc
    · exact sysrootNewCrates_ok bs cs st.crateList.length c hc
  · intro p hp n hn
    have := h2 p hp n hn
    simp only [hlen]
    omega
  · intro q hq e he
    simp only [hlen]
    rcases List.mem_append.1 hq with hq | hq
    · have := h3 q hq e he
      omega
    · simp only [List.mem_singleton] at hq
      subst hq
      simp only [sysrootInnerMap, List.mem_cons, List.not_mem_nil, or_false] at he
      rcases he with rfl | rfl | rfl | rfl | rfl | rfl | rfl | rfl <;> simp <;> omega

@[simp] theorem setIndexAt_lookup (root : String) (n : Nat) (st : ResolveState) :
    (setIndexAt root n st).lookup =
      assocUpdate root (fun i => { i with index := some n }) st.lookup := rfl

@[simp] theorem markSeen_lookup (root : String) (st : ResolveState) :
    (markSeen root st).lookup =
      assocUpdate root (fun i => { i with seen := true }) st.lookup := rfl

theorem stateOk_appendCrate (bs : BuildSettings) (root : String) (allT : List Target)
    (mt : Target) (args : List String) (sys : String) (ds : List String)
    (st3 : ResolveState) (hok : stateOk st3) :
    stateOk { setIndexAt root st3.crateList.length st3 with
      crateList := st3.crateList ++
        [buildCrateRecord bs root allT mt args (findArgValue "--target" args) sys ds
          (setIndexAt root st3.crateList.length st3)] } := by
  obtain ⟨h1, h2, h3⟩ := hok
  refine ⟨?_, ?_, ?_⟩
  · intro x hx
    simp only [List.mem_append, List.mem_singleton] at hx
    rcases hx with hx | rfl
    · exact h1 x hx
    · constructor
      · intro e he
        rcases buildCrateRecord_deps_mem bs root allT mt args
            (findArgValue "--target" args) sys ds _ e he with
          ⟨m, hm, nm, hmm⟩ | ⟨dep, inf, hne, hfind, hidx⟩
        · rw [setIndexAt_sysrootLookup] at hm
          have hb := h3 (sys, m) (assocFind_mem hm) (nm, e.1) hmm
          rw [buildCrateRecord_index, setIndexAt_crateList]
          exact hb
        · rw [setIndexAt_lookup, assocFind_assocUpdate_ne hne _ st3.lookup] at hfind
          have hb := h2 (dep, inf) (assocFind_mem hfind) e.1 hidx
          rw [buildCrateRecord_index, setIndexAt_crateList]
          exact hb
      · rw [buildCrateRecord_triple, buildCrateRecord_compilerArgs]
  · intro p hp nn hnn
    simp only [setIndexAt_lookup] at hp
    have hlen : (st3.crateList ++
        [buildCrateRecord bs root allT mt args (findArgValue "--target" args) sys ds
          (setIndexAt root st3.crateList.length st3)]).length =
        st3.crateList.length + 1 := by simp
    simp only [hlen]
    rcases mem_assocUpdate hp with hmem | ⟨v, rfl, _⟩
    · have := h2 p hmem nn hnn
      omega
    · simp only [Option.some.injEq] at hnn
      omega
  · intro q hq e he
    simp only [setIndexAt_sysrootLookup] at hq
    have := h3 q hq e he
    simp only [List.length_append, List.length_singleton]
    omega

theorem addCrateDeps_stateOk (resolve : String → ResolveState → Option ResolveState)
    (hres : ∀ dep st st2, stateOk st → resolve dep st = some st2 → stateOk st2) :
    ∀ (ds : List String) (root : String) (st st2 : ResolveState), stateOk st →
      addCrateDeps resolve root ds st = some st2 → stateOk st2 := by
  intro ds
  induction ds with
  | nil =>
    intro root st st2 hok h
    rw [addCrateDeps] at h
    cases h
    exact hok
  | cons dep rest ihd =>
    intro root st st2 hok h
    rw [addCrateDeps] at h
    split at h
    · exact ihd root st st2 hok h
    · cases hac : resolve dep st with
      | none => rw [hac] at h; cases h
      | some st3 =>
        rw [hac] at h
        exact ihd root st3 st2 (hres dep st st3 hok hac) h

theorem addCrate_stateOk (bs : BuildSettings) (dtc : String) :
    ∀ fuel root st st2, stateOk st → addCrate bs dtc fuel root st = some st2 →
      stateOk st2 := by
  intro fuel
  induction fuel with
  | zero =>
    intro root st st2 _ h
    simp [addCrate] at h
  | succ fuel ih =>
    intro root st st2 hok h
    rw [addCrate] at h
    unfold addCrateStep at h
    cases hfind : assocFind root st.lookup with
    | none => rw [hfind] at h; cases h
    | some info =>
      rw [hfind] at h
      simp only at h
      by_cases hseen : info.seen
      · rw [if_pos hseen] at h
        cases h
        exact hok
      · rw [if_neg hseen] at h
        cases hpt : preferredTarget dtc info.targets with
        | none => rw [hpt] at h; cases h
        | some mt =>
          rw [hpt] at h
          simp only at h
          have hok1 : stateOk (markSeen root st) := stateOk_markSeen root st hok
          split at h
          · -- addCrateDeps failed: no resulting state
            simp at h
          · -- addCrateDeps succeeded with some st3
            rename_i st3 hdeps
            cases h
            by_cases hc : mt.data.sysroot ≠ "" ∧
                assocFind mt.data.sysroot (markSeen root st).sysrootLookup = none
            · -- the sysroot is fresh: AddSysroot ran first
              rw [if_pos hc] at hdeps
              have hok2 := stateOk_addSysrootBranch bs (markSeen root st)
                mt.data.sysroot hok1 hc.2
              have hok3 := addCrateDeps_stateOk (addCrate bs dtc fuel) ih _ root _ st3
                hok2 hdeps
              exact stateOk_appendCrate bs root info.targets mt
                (extractCompilerArgs mt) mt.data.sysroot
                (collectCrateDeps mt info.targets) st3 hok3
            · -- the sysroot is empty or already registered
              rw [if_neg hc] at hdeps
              have hok3 := addCrateDeps_stateOk (addCrate bs dtc fuel) ih _ root _ st3
                hok1 hdeps
              exact stateOk_appendCrate bs root info.targets mt
                (extractCompilerArgs mt) mt.data.sysroot
                (collectCrateDeps mt info.targets) st3 hok3

theorem seedLookup_index_none (allTargets : List Target) :
    ∀ p ∈ seedLookup allTargets, p.2.index = none := by
  unfold seedLookup
  suffices h : ∀ (acc : List (String × CrateInfo)),
      (∀ p ∈ acc, p.2.index = none) →
      ∀ p ∈ allTargets.foldl
        (fun lookup target =>
          if target.data.isBinary && target.data.rustSourceUsed then
            assocUpdate target.data.crateRoot
              (fun info => { info with targets := info.targets ++ [target] }) lookup
          else lookup)
        acc, p.2.index = none by
    exact h [] (by simp)
  induction allTargets with
  | nil => intro acc hacc p hp; exact hacc p hp
  | cons t rest ih =>
    intro acc hacc p hp
    rw [List.foldl_cons] at hp
    refine ih _ ?_ p hp
    intro q hq
    split at hq
    · rcases mem_assocUpdate hq with hmem | ⟨v, rfl, hv⟩
      · exact hacc q hmem
      · rcases hv with hv | rfl
        · exact hacc (_, v) hv
        · rfl
    · exact hacc q hq

theorem addAllCrates_stateOk (bs : BuildSettings) (dtc : String) (fuel : Nat) :
    ∀ (roots : List String) (st st2 : ResolveState), stateOk st →
      addAllCrates bs dtc fuel roots st = some st2 → stateOk st2 := by
  intro roots
  induction roots with
  | nil =>
    intro st st2 hok h
    rw [addAllCrates] at h
    cases h
    exact hok
  | cons root rest ih =>
    intro st st2 hok h
    rw [addAllCrates] at h
    cases hac : addCrate bs dtc fuel root st with
    | none => rw [hac] at h; cases h
    | some st3 =>
      rw [hac] at h
      exact ih st3 st2 (addCrate_stateOk bs dtc fuel root st st3 hok hac) h

theorem generateCrateList_stateOk (bs : BuildSettings) (dtc : String)
    (allTargets : List Target) (st : ResolveState)
    (h : generateCrateList bs dtc allTargets = some st) : stateOk st := by
  unfold generateCrateList at h
  refine addAllCrates_stateOk bs dtc _ _ _ st ?_ h
  refine ⟨by simp, ?_, by simp⟩
  intro p hp n hn
  rw [seedLookup_index_none allTargets p hp] at hn
  cases hn

/-! ### Which keys the serializer emits -/

theorem countOp_append (o : Op) (l1 l2 : List Op) :
    countOp o (l1 ++ l2) = countOp o l1 + countOp o l2 := by
  induction l1 with
  | nil => simp [countOp]
  | cons x rest ih => simp [countOp, ih]; omega

theorem countOp_eq_zero_of_not_mem {o : Op} :
    ∀ {l : List Op}, o ∉ l → countOp o l = 0 := by
  intro l
  induction l with
  | nil => intro _; rfl
  | cons x rest ih =>
    intro h
    have hx : x ≠ o := fun hx => h (by rw [hx]; exact List.mem_cons_self o rest)
    rw [countOp, if_neg hx, ih (fun hr => h (List.mem_cons_of_mem x hr))]

theorem mem_depSeq_cases :
    ∀ (ds : List (Nat × String)) (b : Bool) (op : Op), op ∈ depSeq ds b →
      op = Op.lit "," ∨ op = Op.lit "\n" ∨ op = Op.lit "        \x7b\n" ∨
      op = Op.lit "          \"crate\": " ∨ op = Op.lit ",\n" ∨
      op = Op.lit "          \"name\": \"" ∨ op = Op.lit "\"\n" ∨
      op = Op.lit "        \x7d" ∨ ∃ s, op = Op.val s := by
  intro ds
  induction ds with
  | nil => intro b op hop; simp [depSeq] at hop
  | cons d rest ih =>
    intro b op hop
    rw [depSeq] at hop
    rcases List.mem_append.1 hop with h | h
    · rcases List.mem_append.1 h with h | h
      · split at h
        · simp at h
        · simp at h
          subst h
          tauto
      · simp at h
        aesop
    · exact ih false op h

theorem mem_argSeq_cases (bs : BuildSettings) :
    ∀ (args : List String) (b : Bool) (op : Op), op ∈ argSeq bs args b →
      op = Op.lit ", " ∨ op = Op.lit "\"" ∨ ∃ s, op = Op.val s := by
  intro args
  induction args with
  | nil => intro b op hop; simp [argSeq] at hop
  | cons a rest ih =>
    intro b op hop
    rw [argSeq] at hop
    rcases List.mem_append.1 hop with h | h
    · rcases List.mem_append.1 h with h | h
      · split at h
        · simp at h
        · simp at h
          subst h
          tauto
      · simp at h
        aesop
    · exact ih false op h

theorem mem_cfgSeq_cases (bs : BuildSettings) :
    ∀ (cfgs : List String) (b : Bool) (op : Op), op ∈ cfgSeq bs cfgs b →
      op = Op.lit "," ∨ op = Op.lit "\n" ∨ op = Op.lit "        \"" ∨
      op = Op.lit "\"" ∨ ∃ s, op = Op.val s := by
  intro cfgs
  induction cfgs with
  | nil => intro b op hop; simp [cfgSeq] at hop
  | cons a rest ih =>
    intro b op hop
    rw [cfgSeq] at hop
    rcases List.mem_append.1 hop with h | h
    · rcases List.mem_append.1 h with h | h
      · split at h
        · simp at h
        · simp at h
          subst h
          tauto
      · simp at h
        aesop
    · exact ih false op h

theorem mem_envSeq_cases (bs : BuildSettings) :
    ∀ (envs : List (String × String)) (b : Bool) (op : Op), op ∈ envSeq bs envs b →
      op = Op.lit "," ∨ op = Op.lit "\n" ∨ op = Op.lit "        \"" ∨
      op = Op.lit "\": \"" ∨ op = Op.lit "\"" ∨ ∃ s, op = Op.val s := by
  intro envs
  induction envs with
  | nil => intro b op hop; simp [envSeq] at hop
  | cons a rest ih =>
    intro b op hop
    rw [envSeq] at hop
    rcases List.mem_append.1 hop with h | h
    · rcases List.mem_append.1 h with h | h
      · split at h
        · simp at h
        · simp at h
          subst h
          tauto
      · simp at h
        aesop
    · exact ih false op h

theorem keyLit_not_mem_depSeq {o : Op}
    (h1 : o ∉ ([Op.lit ",", Op.lit "\n", Op.lit "        \x7b\n",
      Op.lit "          \"crate\": ", Op.lit ",\n", Op.lit "          \"name\": \"",
      Op.lit "\"\n", Op.lit "        \x7d"] : List Op))
    (h2 : ∀ s, o ≠ Op.val s) (ds : List (Nat × String)) (b : Bool) :
    o ∉ depSeq ds b := by
  intro hop
  rcases mem_depSeq_cases ds b o hop with h | h | h | h | h | h | h | h | ⟨s, h⟩ <;>
    first
      | exact h2 _ h
      | (subst h; exact h1 (by simp))

theorem keyLit_not_mem_argSeq {o : Op} (bs : BuildSettings)
    (h1 : o ∉ ([Op.lit ", ", Op.lit "\""] : List Op))
    (h2 : ∀ s, o ≠ Op.val s) (args : List String) (b : Bool) :
    o ∉ argSeq bs args b := by
  intro hop
  rcases mem_argSeq_cases bs args b o hop with h | h | ⟨s, h⟩ <;>
    first
      | exact h2 _ h
      | (subst h; exact h1 (by simp))

theorem keyLit_not_mem_cfgSeq {o : Op} (bs : BuildSettings)
    (h1 : o ∉ ([Op.lit ",", Op.lit "\n", Op.lit "        \"", Op.lit "\""] : List Op))
    (h2 : ∀ s, o ≠ Op.val s) (cfgs : List String) (b : Bool) :
    o ∉ cfgSeq bs cfgs b := by
  intro hop
  rcases mem_cfgSeq_cases bs cfgs b o hop with h | h | h | h | ⟨s, h⟩ <;>
    first
      | exact h2 _ h
      | (subst h; exact h1 (by simp))

theorem keyLit_not_mem_envSeq {o : Op} (bs : BuildSettings)
    (h1 : o ∉ ([Op.lit ",", Op.lit "\n", Op.lit "        \"", Op.lit "\": \"",
      Op.lit "\""] : List Op))
    (h2 : ∀ s, o ≠ Op.val s) (envs : List (String × String)) (b : Bool) :
    o ∉ envSeq bs envs b := by
  intro hop
  rcases mem_envSeq_cases bs envs b o hop with h | h | h | h | h | ⟨s, h⟩ <;>
    first
      | exact h2 _ h
      | (subst h; exact h1 (by simp))

theorem cfgKeyLit_mem_writeCrateOps (bs : BuildSettings) (c : Crate) :
    cfgKeyLit ∈ writeCrateOps bs c := by
  unfold writeCrateOps
  simp [cfgKeyLit]

theorem envKeyLit_not_mem_writeCrateOps (bs : BuildSettings) (c : Crate)
    (h : c.rustenv = []) : envKeyLit ∉ writeCrateOps bs c := by
  have hd : ∀ ds b, Op.lit "      \"env\": \x7b" ∉ depSeq ds b :=
    keyLit_not_mem_depSeq (by decide) (by intro s hs; cases hs)
  have ha : ∀ args b, Op.lit "      \"env\": \x7b" ∉ argSeq bs args b :=
    keyLit_not_mem_argSeq bs (by decide) (by intro s hs; cases hs)
  have hc : ∀ cfgs b, Op.lit "      \"env\": \x7b" ∉ cfgSeq bs cfgs b :=
    keyLit_not_mem_cfgSeq bs (by decide) (by intro s hs; cases hs)
  intro hop
  unfold writeCrateOps at hop
  cases hg : c.genDir <;> cases ht : c.compilerTargetTriple <;>
    cases hp : c.procMacroDylib <;>
    simp [envKeyLit, hg, ht, hp, h, hd, ha, hc] at hop

set_option maxHeartbeats 1600000 in
theorem procKeyLit_not_mem_writeCrateOps (bs : BuildSettings) (c : Crate)
    (h : c.procMacroDylib = none) : procKeyLit ∉ writeCrateOps bs c := by
  have hd : ∀ ds b, Op.lit "      \"is_proc_macro\": true,\n" ∉ depSeq ds b :=
    keyLit_not_mem_depSeq (o := Op.lit "      \"is_proc_macro\": true,\n") (by decide)
      (by intro s hs; cases hs)
  have ha : ∀ args b, Op.lit "      \"is_proc_macro\": true,\n" ∉ argSeq bs args b :=
    keyLit_not_mem_argSeq bs (by decide) (by intro s hs; cases hs)
  have hc : ∀ cfgs b, Op.lit "      \"is_proc_macro\": true,\n" ∉ cfgSeq bs cfgs b :=
    keyLit_not_mem_cfgSeq bs (by decide) (by intro s hs; cases hs)
  have he : ∀ envs b, Op.lit "      \"is_proc_macro\": true,\n" ∉ envSeq bs envs b :=
    keyLit_not_mem_envSeq bs (by decide) (by intro s hs; cases hs)
  intro hop
  unfold writeCrateOps at hop
  cases hg : c.genDir <;> cases ht : c.compilerTargetTriple <;>
    by_cases hrv : c.rustenv = [] <;>
    simp [procKeyLit, hg, ht, h, hrv, hd, ha, hc, he] at hop

theorem envKeyLit_mem_writeCrateOps (bs : BuildSettings) (c : Crate)
    (h : c.rustenv ≠ []) : envKeyLit ∈ writeCrateOps bs c := by
  unfold writeCrateOps
  have : c.rustenv.isEmpty = false := by
    cases hr : c.rustenv with
    | nil => exact absurd hr h
    | cons a l => rfl
  simp [envKeyLit, this]

set_option maxHeartbeats 1600000 in
theorem countOp_crateId_writeCrateOps (bs : BuildSettings) (c : Crate) :
    countOp crateIdLit (writeCrateOps bs c) = 1 := by
  have hd : ∀ ds b, countOp (Op.lit "      \"crate_id\": ") (depSeq ds b) = 0 := fun ds b =>
    countOp_eq_zero_of_not_mem
      (keyLit_not_mem_depSeq (o := Op.lit "      \"crate_id\": ") (by decide)
        (by intro s hs; cases hs) ds b)
  have ha : ∀ args b, countOp (Op.lit "      \"crate_id\": ") (argSeq bs args b) = 0 :=
    fun args b =>
    countOp_eq_zero_of_not_mem
      (keyLit_not_mem_argSeq (o := Op.lit "      \"crate_id\": ") bs (by decide)
        (by intro s hs; cases hs) args b)
  have hc : ∀ cfgs b, countOp (Op.lit "      \"crate_id\": ") (cfgSeq bs cfgs b) = 0 :=
    fun cfgs b =>
    countOp_eq_zero_of_not_mem
      (keyLit_not_mem_cfgSeq (o := Op.lit "      \"crate_id\": ") bs (by decide)
        (by intro s hs; cases hs) cfgs b)
  have he : ∀ envs b, countOp (Op.lit "      \"crate_id\": ") (envSeq bs envs b) = 0 :=
    fun envs b =>
    countOp_eq_zero_of_not_mem
      (keyLit_not_mem_envSeq (o := Op.lit "      \"crate_id\": ") bs (by decide)
        (by intro s hs; cases hs) envs b)
  unfold writeCrateOps
  cases hg : c.genDir <;> cases ht : c.compilerTargetTriple <;>
    cases hp : c.procMacroDylib <;> by_cases hrv : c.rustenv.isEmpty <;>
    by_cases hca : c.compilerArgs.isEmpty
  all_goals
    simp only [crateIdLit, hg, ht, hp, hrv, hca, if_true, if_false, countOp_append,
      hd, ha, hc, he]
  all_goals simp [countOp, countOp_append, hd, ha, hc, he]

theorem countOp_crateId_crateSeq (bs : BuildSettings) :
    ∀ (l : List Crate) (b : Bool),
      countOp crateIdLit (crateSeq bs l b) = l.length := by
  intro l
  induction l with
  | nil => intro b; rfl
  | cons c rest ih =>
    intro b
    rw [crateSeq, countOp_append, countOp_append, countOp_crateId_writeCrateOps, ih]
    cases b <;> simp [countOp, crateIdLit] <;> omega

theorem countOp_crateId_writeCratesOps (bs : BuildSettings) (l : List Crate) :
    countOp crateIdLit (writeCratesOps bs l) = l.length := by
  unfold writeCratesOps
  rw [countOp_append, countOp_append, countOp_crateId_crateSeq]
  simp [countOp, crateIdLit]

theorem envKeyLit_mem_iff (bs : BuildSettings) (c : Crate) :
    envKeyLit ∈ writeCrateOps bs c ↔ c.rustenv ≠ [] := by
  constructor
  · intro hop
    by_cases h : c.rustenv = []
    · exact absurd hop (envKeyLit_not_mem_writeCrateOps bs c h)
    · exact h
  · exact envKeyLit_mem_writeCrateOps bs c

/-! ### Concrete instances used by the claim witnesses and counterexamples -/

theorem assocFind_append_self {α : Type} {k : String} {v : α} :
    ∀ {l : List (String × α)}, assocFind k l = none →
      assocFind k (l ++ [(k, v)]) = some v := by
  intro l
  induction l with
  | nil => intro _; simp [assocFind]
  | cons p rest ih =>
    intro h
    rw [assocFind] at h
    rw [List.cons_append, assocFind]
    split at h
    · cases h
    · rename_i hne
      rw [if_neg hne]
      exact ih h

/-- Claim C1: in every crate list the program produces, every dependency edge
recorded on a crate (sysroot crates included) refers to a handle strictly
less than that crate's own handle; chains A depends on B depends on C
therefore satisfy handle(C) < handle(B) < handle(A). -/
theorem claim_C1 (bs : BuildSettings) (dtc : String) (allTargets : List Target)
    (st : ResolveState) (h : generateCrateList bs dtc allTargets = some st)
    (i : Nat) (c : Crate) (hc : st.crateList.get? i = some c)
    (e : Nat × String) (he : e ∈ c.deps) : e.1 < c.index :=
  ((generateCrateList_stateOk bs dtc allTargets st h).1 c
    (List.get?_mem hc)).1 e he

theorem claim_C1_witness : ((0, "b") : Nat × String).1 < c1Crate.index :=
  claim_C1 bsW "tc" [c1A, c1B] c1State rfl 1 c1Crate rfl (0, "b") (by decide)

/-- Claim C2 counterexample: on the two-crate cycle A and B, crate B's
neighbor set contains A, B's record is appended while A's handle is still
unassigned, and the program succeeds with B's record simply omitting the
edge on A — it does not fail hard. -/
theorem claim_C2_counterexample :
    (generateCrateList bsW "tc" [c2A, c2B]).map
        (fun st => st.crateList.map (fun c => (c.name, c.index, c.deps))) =
      some [("b", 0, ([] : List (Nat × String))), ("a", 1, [(0, "b")])] ∧
    collectCrateDeps c2B [c2B] = ["A"] := ⟨rfl, rfl⟩

/-- Claim C2 (amended): when a dependent records its dependency edges, each
gathered neighbor other than the crate itself yields an edge exactly when its
handle is assigned; a neighbor whose handle is still unassigned (reachable on
cyclic neighbor graphs) is skipped — recording never fails. -/
theorem claim_C2 (c : Crate) (crateRoot : String) (crateDeps : List String)
    (lookup : List (String × CrateInfo)) (crateList : List Crate) :
    (recordDepEdges c crateRoot crateDeps lookup crateList).deps =
      c.deps ++ crateDeps.filterMap (fun dep =>
        if dep = crateRoot then none
        else
          match ((assocFind dep lookup).getD CrateInfo.empty).index with
          | some idx => some (idx, ((crateList.get? idx).map Crate.name).getD "")
          | none => none) :=
  recordDepEdges_deps crateRoot crateDeps lookup crateList c

/-- Claim C3 counterexample: for a main target whose only flag is
a --target= prefixed argument, the claim's extraction (standalone flag,
then prefix) yields the triple, but the produced record carries none: the
code never consults the --target= form. -/
theorem claim_C3_counterexample :
    (generateCrateList bsW "tc" [c3T]).map
        (fun st => st.crateList.map (fun c => c.compilerTargetTriple)) =
      some [none] ∧
    findArgValueAfterPfx "--target=" (extractCompilerArgs c3T) = some "x86_64-foo" ∧
    (none : Option String) ≠ some "x86_64-foo" := ⟨rfl, rfl, by simp⟩

/-- Claim C3 (amended): the recorded compile-target triple of every produced
crate record is the value following a standalone --target flag in its
recorded compiler arguments if one exists, otherwise absent; a --target=
prefixed argument is never consulted. -/
theorem claim_C3 (bs : BuildSettings) (dtc : String) (allTargets : List Target)
    (st : ResolveState) (h : generateCrateList bs dtc allTargets = some st)
    (i : Nat) (c : Crate) (hc : st.crateList.get? i = some c) :
    c.compilerTargetTriple = findArgValue "--target" c.compilerArgs :=
  ((generateCrateList_stateOk bs dtc allTargets st h).1 c (List.get?_mem hc)).2

theorem claim_C3_witness :
    c3Crate.compilerTargetTriple = findArgValue "--target" c3Crate.compilerArgs :=
  claim_C3 bsW "tc" [c3W] c3State rfl 0 c3Crate rfl

/-- Claim C4: on a non-empty candidate list, PreferredTarget returns a
candidate of maximal score (+2 for the default toolchain, +1 for not
test-only), and among equal maximal scores the earliest in iteration order:
every candidate before the chosen one scores strictly less. -/
theorem claim_C4 (dtc : String) (l : List Target) (hne : l ≠ []) :
    ∃ r i, preferredTarget dtc l = some r ∧ l.get? i = some r ∧
      (∀ t ∈ l, score dtc t ≤ score dtc r) ∧
      (∀ j u, j < i → l.get? j = some u → score dtc u < score dtc r) := by
  cases l with
  | nil => exact absurd rfl hne
  | cons t ts =>
    obtain ⟨i, r, hget, hfold, hmax, hpre⟩ := preferredFold_spec dtc ts t
    exact ⟨r, i, by rw [preferredTarget, hfold], hget, hmax, hpre⟩

theorem claim_C4_witness :
    ∃ r i, preferredTarget "dt" [c4T1, c4T2, c4T3] = some r ∧
      [c4T1, c4T2, c4T3].get? i = some r ∧
      (∀ t ∈ [c4T1, c4T2, c4T3], score "dt" t ≤ score "dt" r) ∧
      (∀ j u, j < i → [c4T1, c4T2, c4T3].get? j = some u →
        score "dt" u < score "dt" r) :=
  claim_C4 "dt" [c4T1, c4T2, c4T3] (by simp)

/-- Claim C5: a second sysroot-resolution request for the same sysroot path
leaves the per-sysroot table and the crate list unchanged (the crates are
synthesized exactly once, in one batch of appends), and the synthesized
dependency edges are exactly core for alloc, and alloc, core, panic_abort,
unwind for std, with every other built-in crate having none. -/
theorem claim_C5 (bs : BuildSettings) (sysroot : String)
    (lk : List (String × List (String × Nat))) (cl : List Crate)
    (h : assocFind sysroot lk = none) :
    addSysroot bs sysroot (addSysroot bs sysroot lk cl).1
        (addSysroot bs sysroot lk cl).2 = addSysroot bs sysroot lk cl ∧
    ((addSysroot bs sysroot lk cl).2.drop cl.length).map
        (fun c => (c.name, c.deps.map Prod.snd)) =
      [("core", []), ("alloc", ["core"]), ("panic_abort", []), ("unwind", []),
       ("std", ["alloc", "core", "panic_abort", "unwind"]), ("panic_unwind", []),
       ("proc_macro", []), ("test", [])] := by
  rw [addSysroot_spec bs sysroot lk cl h]
  constructor
  · rw [addSysroot, if_pos (by rw [assocFind_append_self h]; rfl)]
  · rw [List.drop_left]
    rfl

theorem claim_C5_witness :
    addSysroot bsW "SR" (addSysroot bsW "SR" [] []).1
        (addSysroot bsW "SR" [] []).2 = addSysroot bsW "SR" [] [] ∧
    ((addSysroot bsW "SR" [] []).2.drop ([] : List Crate).length).map
        (fun c => (c.name, c.deps.map Prod.snd)) =
      [("core", []), ("alloc", ["core"]), ("panic_abort", []), ("unwind", []),
       ("std", ["alloc", "core", "panic_abort", "unwind"]), ("panic_unwind", []),
       ("proc_macro", []), ("test", [])] :=
  claim_C5 bsW "SR" [] [] rfl

/-- Claim C6: crate-level neighbor discovery is exactly the dedup-fold of the
specification's walk: it collects the crate root of every Rust dependency,
recurses transparently through pure grouping targets to any depth, never
recurses through a Rust dependency and never lists a grouping target itself
(the spec-side walk says precisely this), and the result keeps insertion
order with duplicates collapsed: it is duplicate-free and has the same
members as the spec-side walk. -/
theorem claim_C6 (t : Target) :
    getRustDeps t [] = (crateNeighborRootsSpec t).foldl pushBack [] ∧
    (getRustDeps t []).Nodup ∧
    (∀ x, x ∈ getRustDeps t [] ↔ x ∈ crateNeighborRootsSpec t) := by
  refine ⟨getRustDeps_eq_spec t [], ?_, ?_⟩
  · rw [getRustDeps_eq_spec t []]
    exact nodup_foldl_pushBack _ [] List.nodup_nil
  · intro x
    rw [getRustDeps_eq_spec t [], mem_foldl_pushBack]
    simp

/-- Claim C7 counterexample: the entry A=B=C is recorded as (A, B) — the
recorded value is only the text between the first and second separator —
whereas splitting on the first separator alone, as the claim states, would
record (A, B=C). -/
theorem claim_C7_counterexample :
    (addRustenvEntries emptyCrateW ["A=B=C"]).rustenv = [("A", "B")] ∧
    splitFirstEqSpec "A=B=C" = some ("A", "B=C") ∧
    (("A", "B") : String × String) ≠ ("A", "B=C") := ⟨rfl, rfl, by decide⟩

/-- Claim C7 (amended): every declared environment entry is split at every
separator with whitespace-trimmed pieces; entries producing at least two
pieces record (first piece, second piece) — text after a second separator is
dropped — and entries with no separator are ignored. -/
theorem claim_C7 (c : Crate) (envVars : List String) :
    (addRustenvEntries c envVars).rustenv =
      c.rustenv ++ envVars.filterMap (fun envVar =>
        match splitEnvVar envVar with
        | a :: b :: _ => some (a, b)
        | _ => none) :=
  addRustenvEntries_rustenv envVars c

/-- Claim C8: every record synthesized for a sysroot has root path
rebased-sysroot-path ++ /lib/rustlib/src/rust/library/ ++ name ++
/src/lib.rs, edition 2018, exactly the single configuration flag
debug_assertions, and each of its dependency edges carries exactly the
handle the per-sysroot table memoizes for that dependency name, which is an
already-synthesized (strictly smaller) handle. -/
theorem claim_C8 (bs : BuildSettings) (sysroot : String)
    (lk : List (String × List (String × Nat))) (cl : List Crate)
    (h : assocFind sysroot lk = none) :
    ∀ c ∈ (addSysroot bs sysroot lk cl).2.drop cl.length,
      c.root = bs.buildDirPath ++ sysroot ++ "/lib/rustlib/src/rust/library/" ++
        c.name ++ "/src/lib.rs" ∧
      c.edition = "2018" ∧ c.configs = ["debug_assertions"] ∧
      ∀ e ∈ c.deps,
        assocFind e.2 (sysrootInnerMap cl.length) = some e.1 ∧ e.1 < c.index := by
  rw [addSysroot_spec bs sysroot lk cl h]
  rw [show (lk ++ [(sysroot, sysrootInnerMap cl.length)],
      cl ++ sysrootNewCrates bs sysroot cl.length).2 =
      cl ++ sysrootNewCrates bs sysroot cl.length from rfl]
  rw [List.drop_left]
  intro c hc
  simp only [sysrootNewCrates, List.mem_cons, List.not_mem_nil, or_false] at hc
  rcases hc with rfl | rfl | rfl | rfl | rfl | rfl | rfl | rfl
  all_goals refine ⟨rfl, rfl, rfl, ?_⟩
  all_goals intro e he
  all_goals simp only [sysrootCrateRecord, List.mem_cons, List.not_mem_nil,
    or_false] at he
  · subst he
    exact ⟨rfl, by simp only [sysrootCrateRecord]; omega⟩
  · rcases he with rfl | rfl | rfl | rfl
    · exact ⟨rfl, by simp only [sysrootCrateRecord]; omega⟩
    · exact ⟨rfl, by simp only [sysrootCrateRecord]; omega⟩
    · exact ⟨rfl, by simp only [sysrootCrateRecord]; omega⟩
    · exact ⟨rfl, by simp only [sysrootCrateRecord]; omega⟩

theorem claim_C8_witness :
    c8c.root = bsW.buildDirPath ++ "SR" ++ "/lib/rustlib/src/rust/library/" ++
      c8c.name ++ "/src/lib.rs" ∧
    c8c.edition = "2018" ∧ c8c.configs = ["debug_assertions"] ∧
    (assocFind "core" (sysrootInnerMap ([] : List Crate).length) = some 0 ∧
      (0 : Nat) < c8c.index) := by
  have h := claim_C8 bsW "SR" [] [] rfl c8c
    (by
      rw [show (addSysroot bsW "SR" [] []).2.drop ([] : List Crate).length =
        sysrootNewCrates bsW "SR" 0 from rfl]
      simp [sysrootNewCrates, c8c])
  exact ⟨h.1, h.2.1, h.2.2.1, h.2.2.2 (0, "core") (by decide)⟩

/-- Claim C9: for a crate list with no environment entries and no proc-macro
crates, the emitted manifest has exactly one crate element per record (one
crate_id key emission each), no element emits the env or is_proc_macro keys,
and in general every element emits the cfg key (even with no flags) while
the env key is emitted exactly when environment entries were recorded. -/
theorem claim_C9 (bs : BuildSettings) (l : List Crate)
    (h : ∀ c ∈ l, c.rustenv = [] ∧ c.procMacroDylib = none) :
    countOp crateIdLit (writeCratesOps bs l) = l.length ∧
    (∀ c ∈ l, envKeyLit ∉ writeCrateOps bs c ∧ procKeyLit ∉ writeCrateOps bs c) ∧
    (∀ (bs2 : BuildSettings) (c : Crate), cfgKeyLit ∈ writeCrateOps bs2 c ∧
      (envKeyLit ∈ writeCrateOps bs2 c ↔ c.rustenv ≠ [])) := by
  refine ⟨countOp_crateId_writeCratesOps bs l, ?_, ?_⟩
  · intro c hc
    exact ⟨envKeyLit_not_mem_writeCrateOps bs c (h c hc).1,
      procKeyLit_not_mem_writeCrateOps bs c (h c hc).2⟩
  · intro bs2 c
    exact ⟨cfgKeyLit_mem_writeCrateOps bs2 c, envKeyLit_mem_iff bs2 c⟩

theorem claim_C9_witness :
    countOp crateIdLit (writeCratesOps bsW [c9Crate]) = [c9Crate].length ∧
    (∀ c ∈ [c9Crate],
      envKeyLit ∉ writeCrateOps bsW c ∧ procKeyLit ∉ writeCrateOps bsW c) ∧
    (∀ (bs2 : BuildSettings) (c : Crate), cfgKeyLit ∈ writeCrateOps bs2 c ∧
      (envKeyLit ∈ writeCrateOps bs2 c ↔ c.rustenv ≠ [])) :=
  claim_C9 bsW [c9Crate]
    (by
      intro c hc
      rw [List.mem_singleton] at hc
      subst hc
      exact ⟨rfl, rfl⟩)

/-- Claim C10: synthesizing a fresh sysroot appends exactly eight records,
one per built-in crate, always in the fixed order core, alloc, panic_abort,
unwind, std, panic_unwind, proc_macro, test, with eight consecutive handles
starting at the crate list's size at the time of the call. -/
theorem claim_C10 (bs : BuildSettings) (sysroot : String)
    (lk : List (String × List (String × Nat))) (cl : List Crate)
    (h : assocFind sysroot lk = none) :
    (addSysroot bs sysroot lk cl).2 = cl ++ sysrootNewCrates bs sysroot cl.length ∧
    (sysrootNewCrates bs sysroot cl.length).map Crate.name =
      ["core", "alloc", "panic_abort", "unwind", "std", "panic_unwind",
       "proc_macro", "test"] ∧
    (sysrootNewCrates bs sysroot cl.length).map Crate.index =
      [cl.length, cl.length + 1, cl.length + 2, cl.length + 3, cl.length + 4,
       cl.length + 5, cl.length + 6, cl.length + 7] ∧
    (sysrootNewCrates bs sysroot cl.length).length = 8 := by
  rw [addSysroot_spec bs sysroot lk cl h]
  exact ⟨rfl, rfl, rfl, rfl⟩

theorem claim_C10_witness :
    (addSysroot bsW "SR2" [] []).2 =
      ([] : List Crate) ++ sysrootNewCrates bsW "SR2" ([] : List Crate).length ∧
    (sysrootNewCrates bsW "SR2" ([] : List Crate).length).map Crate.name =
      ["core", "alloc", "panic_abort", "unwind", "std", "panic_unwind",
       "proc_macro", "test"] ∧
    (sysrootNewCrates bsW "SR2" ([] : List Crate).length).map Crate.index =
      [([] : List Crate).length, ([] : List Crate).length + 1,
       ([] : List Crate).length + 2, ([] : List Crate).length + 3,
       ([] : List Crate).length + 4, ([] : List Crate).length + 5,
       ([] : List Crate).length + 6, ([] : List Crate).length + 7] ∧
    (sysrootNewCrates bsW "SR2" ([] : List Crate).length).length = 8 :=
  claim_C10 bsW "SR2" [] [] rfl
